import Mathlib

/-!
Verification of the distributed-modular-synthesizer connection protocol
(`test_module/connection_protocol.py`, `test_module/patch_protocol.py`,
`test_module/module.py`, `test_module/osc_module.py` and friends).

The Python code is shallowly embedded:

* Python strings are sequences of Unicode code points, modelled as `List Nat`.
* Python's dynamically typed JSON-ish values (the message payload
  dictionaries, and the dynamically typed attributes of the jack objects)
  are modelled by the inductive type `Jx` (`None` is `Jx.jnull`).
  Floating point JSON numbers are outside the model; every payload the
  repository builds uses only strings and integers.
* Mutation is explicit state passing; each handler returns the new state
  together with its effects (messages sent on the control socket, LED
  updates queued); an uncaught Python exception is modelled by a `raised`
  flag (mutations performed before the raise are kept, the rest of the
  handler is skipped), or by `Except` for the wire codec.
-/

namespace Digimod


/-! ## Enumerations (`connection_protocol.py`, `OutputState`, `InputState`,
`LedState`, `ProtocolMessageType`) -/

inductive OutputState where
  | OIdle | OSelfPending | OOtherPending | OCompatible | ONotCompatible
deriving DecidableEq, Repr

inductive InputState where
  | IIdleDisconnected | ISelfCompatible | IPending | IIdleConnected
  | IOtherPending | IPendingSame | IOtherCompatible
deriving DecidableEq, Repr

inductive LedState where
  | OFF | SOLID | BLINK_SLOW | BLINK_RAPID
deriving DecidableEq, Repr

/-- Message type bytes of `connection_protocol.ProtocolMessageType`. -/
def MT_INITIATE : Nat := 1
def MT_CANCEL : Nat := 2
def MT_COMPATIBLE : Nat := 3
def MT_CONNECT : Nat := 4
def MT_SHOW_CONNECTED : Nat := 5
def MT_STATE_INQUIRY : Nat := 10

/-! ## Python values -/

/-- A Python string: its sequence of Unicode code points. -/
abbrev PyStr := List Nat

/-- Code points of a concrete ASCII-ish Lean literal, used to write down
concrete Python strings. -/
def pystr (s : String) : PyStr := s.data.map Char.toNat

mutual
/-- Dynamically typed Python/JSON values as they appear in message payloads
and in the dynamically typed jack attributes.  `jnull` doubles as Python's
`None` (the `json` module maps `None` and `null` to each other).  Arrays and
objects carry their own list types (`JxList`, `JxObj`) so that equality
stays decidable.  Floating point numbers are outside the model. -/
inductive Jx where
  | jnull : Jx
  | jbool : Bool → Jx
  | jint : Int → Jx
  | jstr : PyStr → Jx
  | jarr : JxList → Jx
  | jobj : JxObj → Jx
deriving DecidableEq, Repr

inductive JxList where
  | nil : JxList
  | cons : Jx → JxList → JxList
deriving DecidableEq, Repr

inductive JxObj where
  | onil : JxObj
  | ocons : PyStr → Jx → JxObj → JxObj
deriving DecidableEq, Repr
end

/-- A Python dictionary with string keys. -/
abbrev PyDict := List (PyStr × Jx)

/-- `d[k]` as an option (`dict.get(k)` without default). -/
def pyGet (d : PyDict) (k : PyStr) : Option Jx :=
  match d with
  | [] => none
  | (k', v) :: rest => if k' = k then some v else pyGet rest k

/-- `d.get(k, dflt)`. -/
def pyGetD (d : PyDict) (k : PyStr) (dflt : Jx) : Jx :=
  (pyGet d k).getD dflt

/-- Python truthiness of a `Jx` value (`None`, `False`, `0`, `""`, `[]`,
`{}` are falsy). -/
def pyTruthy : Jx → Bool
  | .jnull => false
  | .jbool b => b
  | .jint n => n != 0
  | .jstr s => !s.isEmpty
  | .jarr .nil => false
  | .jarr (.cons _ _) => true
  | .jobj .onil => false
  | .jobj (.ocons _ _ _) => true

/-- Python's `<` on strings: lexicographic comparison by code point. -/
def pyLt : PyStr → PyStr → Bool
  | [], [] => false
  | [], _ :: _ => true
  | _ :: _, [] => false
  | a :: as', b :: bs => if a < b then true else if b < a then false else pyLt as' bs

/-! ## Messages (control-plane view)

The fields of `connection_protocol.ProtocolMessage` as the jack state
machines see them. -/

structure FsmMsg where
  type : Nat
  module_id : PyStr
  io_type : Nat := 0
  io_id : PyStr := []
  payload : PyDict := []
deriving DecidableEq, Repr

/-- `IOType.from_string` (`connection_protocol.py`): lower-cases its
argument (modelled for ASCII letters) and maps the known names. -/
def pyLowerChar (c : Nat) : Nat :=
  if 65 ≤ c ∧ c ≤ 90 then c + 32 else c

def ioTypeFromString (s : PyStr) : Nat :=
  let l := s.map pyLowerChar
  if l = pystr "cv" then 1
  else if l = pystr "audio" then 2
  else if l = pystr "gate" then 3
  else if l = pystr "trigger" then 4
  else if l = pystr "clock" then 5
  else if l = pystr "midi" then 6
  else if l = pystr "osc" then 7
  else 0

/-! ## Jack and module data -/

/-- `connection_protocol.ConnectionRecord`.  The `mcast_group`,
`block_offset` and `block_size` slots receive whatever (dynamically typed)
value the payload carried, hence `Jx`. -/
structure ConnectionRecord where
  src : Jx := .jstr []
  src_io : Jx := .jstr []
  mcast_group : Jx := .jstr []
  block_offset : Jx := .jint 0
  block_size : Jx := .jint 96
deriving DecidableEq, Repr

structure OutputJack where
  io_id : PyStr
  state : OutputState := .OIdle
deriving DecidableEq, Repr

structure InputJack where
  io_id : PyStr
  state : InputState := .IIdleDisconnected
  connected_src : Jx := .jnull
  connected_src_io : Jx := .jnull
  connected_mcast : Jx := .jnull
  connected_offset : Jx := .jnull
  connected_block_size : Jx := .jnull
  pending_initiator : Jx := .jnull
  pending_initiator_io : Jx := .jnull
  pending_mcast : Jx := .jnull
  pending_offset : Jx := .jnull
deriving DecidableEq, Repr

/-- The per-module context the jack handlers read (`self.module`).
`inputs`/`outputs` are the jack-descriptor dictionaries; `pending_msg`
models the `getattr(self.module, "pending_msg", None)` read in
`InputJack.short_press` — no statement anywhere in the repository ever
assigns this attribute, so on a real module the read always yields `None`. -/
structure ModuleCtx where
  module_id : PyStr
  mtype : PyStr := []
  mcast_group : PyStr := []
  inputs : List (PyStr × PyDict) := []
  outputs : List (PyStr × PyDict) := []
  pending_msg : Option FsmMsg := none
deriving DecidableEq, Repr

/-- Jack-descriptor table lookup (`io_id in self.inputs`, `...[io_id]`). -/
def tblGet (tbl : List (PyStr × PyDict)) (k : PyStr) : Option PyDict :=
  match tbl with
  | [] => none
  | (k', v) :: rest => if k' = k then some v else tblGet rest k

/-- Look up a jack-descriptor dictionary (`self.module.outputs[io_id]`).
Jack objects exist only for registered ids, so the `KeyError` branch of the
subscript is unreachable; an absent key is modelled by the empty dict. -/
def infoOf (tbl : List (PyStr × PyDict)) (k : PyStr) : PyDict :=
  (tblGet tbl k).getD []

/-! ## LED mappings (`OutputJack._set_led`, `InputJack._set_led`) -/

def outputLed : OutputState → LedState
  | .OIdle => .SOLID
  | .OSelfPending => .BLINK_SLOW
  | .OOtherPending => .OFF
  | .OCompatible => .SOLID
  | .ONotCompatible => .OFF

def inputLed : InputState → LedState
  | .IIdleDisconnected => .OFF
  | .ISelfCompatible => .SOLID
  | .IPending => .SOLID
  | .IIdleConnected => .BLINK_RAPID
  | .IOtherPending => .OFF
  | .IPendingSame => .BLINK_SLOW
  | .IOtherCompatible => .OFF

/-- The LED table of §4.3 of the specification, written from the spec's
words (for comparison with the code's `inputLed`): inputs column. -/
def specInputLed : InputState → LedState
  | .IIdleDisconnected => .OFF
  | .ISelfCompatible => .BLINK_SLOW
  | .IPending => .SOLID
  | .IIdleConnected => .BLINK_RAPID
  | .IOtherPending => .OFF
  | .IPendingSame => .BLINK_SLOW
  | .IOtherCompatible => .OFF

/-! ## Output jack handlers (`connection_protocol.OutputJack`) -/

/-- Outcome of one handler invocation on an output jack. -/
structure OutStep where
  jack : OutputJack
  sent : List FsmMsg := []
  leds : List (PyStr × LedState) := []
deriving DecidableEq, Repr

/-- The `INITIATE` built by `OutputJack._send_initiate`: payload from the
output's descriptor, `mod_type=self.module.type`. -/
def sendInitiateMsg (m : ModuleCtx) (io : PyStr) : FsmMsg :=
  let info := infoOf m.outputs io
  { type := MT_INITIATE
    module_id := m.module_id
    io_type := ioTypeFromString m.mtype
    io_id := io
    payload := [(pystr "type", pyGetD info (pystr "type") (.jstr (pystr "unknown"))),
                (pystr "group", pyGetD info (pystr "group") (.jstr m.mcast_group)),
                (pystr "offset", pyGetD info (pystr "offset") (.jint 0)),
                (pystr "block_size", pyGetD info (pystr "block_size") (.jint 96))] }

/-- The `CANCEL` built by `Module.send_cancel(io_id)`. -/
def sendCancelMsg (m : ModuleCtx) (io : PyStr) : FsmMsg :=
  { type := MT_CANCEL, module_id := m.module_id, io_type := 0, io_id := io, payload := [] }

/-- `OutputJack.short_press`: only `OIdle` and `OCompatible` react (send
`INITIATE`, go to `OSelfPending`); every other state ignores the press. -/
def outputShortPress (m : ModuleCtx) (j : OutputJack) : OutStep :=
  if j.state = .OIdle ∨ j.state = .OCompatible then
    { jack := { j with state := .OSelfPending }
      sent := [sendInitiateMsg m j.io_id]
      leds := [(j.io_id, outputLed .OSelfPending)] }
  else
    { jack := j }

/-- `OutputJack.long_press`. -/
def outputLongPress (m : ModuleCtx) (j : OutputJack) : OutStep :=
  if j.state ≠ .OIdle then
    { jack := { j with state := .OIdle }
      sent := [sendCancelMsg m j.io_id]
      leds := [(j.io_id, outputLed .OIdle)] }
  else
    { jack := j }

/-- `OutputJack.on_initiate`: ignore own message; in `OSelfPending` yield
iff the competing module id is lexicographically lower; otherwise go dark. -/
def outputOnInitiate (m : ModuleCtx) (j : OutputJack) (msg : FsmMsg) : OutStep :=
  if msg.module_id = m.module_id ∧ msg.io_id = j.io_id then
    { jack := j }
  else if j.state = .OSelfPending then
    if pyLt msg.module_id m.module_id then
      { jack := { j with state := .OOtherPending }
        leds := [(j.io_id, outputLed .OOtherPending)] }
    else
      { jack := j }
  else
    { jack := { j with state := .OOtherPending }
      leds := [(j.io_id, outputLed .OOtherPending)] }

/-- `OutputJack.on_cancel`: unconditionally back to `OIdle` (the guard in
the source is commented out; the assignment runs for every `CANCEL`). -/
def outputOnCancel (j : OutputJack) : OutStep :=
  { jack := { j with state := .OIdle }, leds := [(j.io_id, outputLed .OIdle)] }

/-- `OutputJack.on_compatible`. -/
def outputOnCompatible (m : ModuleCtx) (j : OutputJack) (msg : FsmMsg) : OutStep :=
  if msg.module_id = m.module_id ∧ msg.io_id = j.io_id then
    { jack := j }
  else
    let requested := pyGetD msg.payload (pystr "type") (.jstr (pystr "unknown"))
    let myty := pyGetD (infoOf m.outputs j.io_id) (pystr "type") (.jstr (pystr "unknown"))
    let st := if myty = requested then OutputState.OCompatible else OutputState.ONotCompatible
    { jack := { j with state := st }, leds := [(j.io_id, outputLed st)] }

/-! ## Input jack handlers (`connection_protocol.InputJack`)

The input handlers call back into their module's façade
(`send_compatible`, `send_cancel`, `send_show_connected`,
`_start_receiver`, `_stop_receiver`).  Of the classes in the repository
only `module.Module` (module.py) provides all of these, so that façade is
the one embedded here. -/

/-- The module's `input_connections` dictionary. -/
abbrev Conns := List (PyStr × Option ConnectionRecord)

/-- Python dict assignment `d[k] = v` (updates in place, inserts at the
end for a new key). -/
def dictSet (d : Conns) (k : PyStr) (v : Option ConnectionRecord) : Conns :=
  match d with
  | [] => [(k, v)]
  | (k', v') :: rest => if k' = k then (k, v) :: rest else (k', v') :: dictSet rest k v

/-- `input_connections.get(io)`: an absent key and a stored `None` both
read back as `None`. -/
def connGet (d : Conns) (k : PyStr) : Option ConnectionRecord :=
  match d with
  | [] => none
  | (k', v) :: rest => if k' = k then v else connGet rest k

/-- Outcome of one handler invocation on an input jack.  `joins` lists the
multicast groups joined on the sample socket; `raised` marks an uncaught
Python exception (mutations already performed are kept, the rest of the
handler is skipped). -/
structure InStep where
  jack : InputJack
  conns : Conns
  sent : List FsmMsg := []
  leds : List (PyStr × LedState) := []
  joins : List Jx := []
  raised : Bool := false
deriving DecidableEq, Repr

/-- `Module.send_compatible(io_id)`: silently sends nothing when `io_id`
is not a registered input. -/
def sendCompatibleList (m : ModuleCtx) (io : PyStr) : List FsmMsg :=
  match tblGet m.inputs io with
  | none => []
  | some info =>
      [{ type := MT_COMPATIBLE
         module_id := m.module_id
         io_type := ioTypeFromString m.mtype
         io_id := io
         payload := [(pystr "type", pyGetD info (pystr "type") (.jstr (pystr "unknown")))] }]

/-- `Module.send_show_connected(io_id, target_mod, target_io)`. -/
def sendShowConnectedMsg (m : ModuleCtx) (io : PyStr) (tmod tio : Jx) : FsmMsg :=
  { type := MT_SHOW_CONNECTED
    module_id := m.module_id
    io_type := 0
    io_id := io
    payload := [(pystr "target_mod", tmod), (pystr "target_io", tio)] }

/-- `Module._start_receiver(io_id, group, offset, block_size)` (module.py):
joins `group` on the sample socket, then overwrites
`input_connections[io_id]` with a fresh record whose `src`/`src_io` are
empty strings.  Returns the new dictionary and the joined group. -/
def moduleStartReceiver (conns : Conns) (io : PyStr) (group offset block : Jx) :
    Conns × List Jx :=
  (dictSet conns io
      (some { src := .jstr [], src_io := .jstr [], mcast_group := group,
              block_offset := offset, block_size := block }),
   [group])

/-- `InputJack._accept_connection(msg)`.  The handler records the
connection data, stores a `ConnectionRecord`, enters `IPendingSame`,
queues the LED and starts the receiver — and then RAISES: the log line
`logger.info(f"... mcast={mcast_group}")` references the undefined name
`mcast_group`, a `NameError`.  Nothing after it runs: no `CONNECT` is ever
sent (no code in the repository sends `CONNECT`), and the pending
initiator data is not cleared. -/
def acceptConnection (m : ModuleCtx) (j : InputJack) (conns : Conns) (msg : FsmMsg) : InStep :=
  let mcast := pyGetD msg.payload (pystr "group") (.jstr m.mcast_group)
  let offset := pyGetD msg.payload (pystr "offset") (.jint 0)
  let block := pyGetD msg.payload (pystr "block_size") (.jint 96)
  let j' := { j with
    connected_src := .jstr msg.module_id
    connected_src_io := .jstr msg.io_id
    connected_mcast := mcast
    connected_offset := offset
    connected_block_size := block
    state := .IPendingSame }
  let conns1 := dictSet conns j.io_id
      (some { src := .jstr msg.module_id, src_io := .jstr msg.io_id, mcast_group := mcast,
              block_offset := offset, block_size := block })
  let sr := moduleStartReceiver conns1 j.io_id mcast offset block
  { jack := j', conns := sr.1, joins := sr.2
    leds := [(j.io_id, inputLed .IPendingSame)], raised := true }

/-- `InputJack.short_press`.  In `IPending` it reads
`getattr(self.module, "pending_msg", None)` — an attribute no statement in
the repository ever assigns — so on a real module the accept branch is
skipped and the jack flips to `IIdleConnected` without creating a record,
joining a group or sending anything. -/
def inputShortPress (m : ModuleCtx) (j : InputJack) (conns : Conns) : InStep :=
  if j.state = .IIdleDisconnected then
    { jack := { j with state := .ISelfCompatible }, conns
      sent := sendCompatibleList m j.io_id
      leds := [(j.io_id, inputLed .ISelfCompatible)] }
  else if j.state = .IPending then
    match m.pending_msg with
    | none =>
        { jack := { j with state := .IIdleConnected }, conns
          leds := [(j.io_id, inputLed .IIdleConnected)] }
    | some pm =>
        let r := acceptConnection m j conns pm
        if r.raised then r
        else
          { r with jack := { r.jack with state := .IIdleConnected }
                   leds := r.leds ++ [(j.io_id, inputLed .IIdleConnected)] }
  else if j.state = .IIdleConnected then
    if pyTruthy j.connected_src && pyTruthy j.connected_src_io then
      { jack := j, conns
        sent := [sendShowConnectedMsg m j.io_id j.connected_src j.connected_src_io] }
    else
      { jack := j, conns }
  else if j.state = .ISelfCompatible then
    { jack := { j with state := .IIdleDisconnected }, conns
      sent := [sendCancelMsg m j.io_id]
      leds := [(j.io_id, inputLed .IIdleDisconnected)] }
  else
    { jack := j, conns }

/-- `InputJack.long_press`. -/
def inputLongPress (m : ModuleCtx) (j : InputJack) (conns : Conns) : InStep :=
  if j.state = .ISelfCompatible then
    { jack := { j with state := .IIdleDisconnected }, conns
      sent := [sendCancelMsg m j.io_id]
      leds := [(j.io_id, LedState.OFF)] }
  else if j.state = .IIdleConnected then
    { jack := { j with state := .IIdleDisconnected }
      conns := dictSet conns j.io_id none
      leds := [(j.io_id, LedState.OFF)] }
  else
    { jack := j, conns }

/-- `InputJack.on_initiate`. -/
def inputOnInitiate (m : ModuleCtx) (j : InputJack) (conns : Conns) (msg : FsmMsg) : InStep :=
  if msg.module_id = m.module_id ∧ msg.io_id = j.io_id then
    { jack := j, conns }
  else
    let src_type := pyGetD msg.payload (pystr "type") (.jstr (pystr "unknown"))
    let src_group := pyGetD msg.payload (pystr "group") .jnull
    let src_offset := pyGetD msg.payload (pystr "offset") (.jint 0)
    let my_type := pyGetD (infoOf m.inputs j.io_id) (pystr "type") (.jstr (pystr "unknown"))
    let current_conn := connGet conns j.io_id
    let type_match := src_type == my_type
    let exact_match :=
      match current_conn with
      | some rec => rec.mcast_group == src_group && rec.block_offset == src_offset
      | none => false
    let newState :=
      if !type_match then
        if j.state = .IIdleDisconnected ∨ j.state = .ISelfCompatible ∨ j.state = .IPending
        then InputState.IOtherCompatible
        else InputState.IOtherPending
      else if exact_match then InputState.IPendingSame
      else if current_conn.isSome then InputState.IIdleConnected
      else InputState.IPending
    let j' := { j with
      state := newState
      pending_initiator := .jstr msg.module_id
      pending_initiator_io := .jstr msg.io_id
      pending_mcast := src_group
      pending_offset := src_offset }
    { jack := j', conns := conns, leds := [(j.io_id, inputLed newState)] }

/-- `InputJack.on_cancel`. -/
def inputOnCancel (j : InputJack) (conns : Conns) : InStep :=
  let st :=
    if j.state = .IPending ∨ j.state = .ISelfCompatible ∨ j.state = .IOtherCompatible then
      InputState.IIdleDisconnected
    else if j.state = .IPendingSame then InputState.IIdleConnected
    else if j.state = .IOtherPending then InputState.IIdleConnected
    else j.state
  let j' := { j with
    state := st
    pending_initiator := .jnull
    pending_initiator_io := .jnull
    pending_mcast := .jnull
    pending_offset := .jnull }
  { jack := j', conns := conns, leds := [(j.io_id, inputLed st)] }

/-- `ConnectionProtocol.handle_msg`, `CANCEL` branch: every input jack's
`on_cancel`, then every output jack's `on_cancel` (neither touches the
connection dictionary). -/
def moduleHandleCancel (ins : List InputJack) (outs : List OutputJack) (conns : Conns) :
    List InputJack × List OutputJack :=
  (ins.map (fun j => (inputOnCancel j conns).jack),
   outs.map (fun j => (outputOnCancel j).jack))

/-! ## Patch save/restore (`patch_protocol.PatchProtocol`)

`PatchProtocol` is mixed into the concrete modules
(`OscModule`, `LfoModule`, `AudioOutModule`); lookups below follow that
method resolution order.  `get_state` is defined twice in
patch_protocol.py; the second definition (the one that does *not* save
`src_io`) wins. -/

/-- The part of a concrete module's state that `get_state`/`restore_patch`
touch. -/
structure PatchModule where
  module_id : PyStr
  controls : PyDict := []
  control_ranges : List (PyStr × (Jx × Jx)) := []
  inputs : List (PyStr × PyDict) := []
  input_jacks : List InputJack := []
  input_connections : Conns := []
deriving DecidableEq, Repr

/-- The `{controls, connections}` dictionary produced by `get_state`. -/
structure PatchState where
  controls : PyDict := []
  connections : List (PyStr × PyDict) := []
deriving DecidableEq, Repr

/-- The `connections` half of `PatchProtocol.get_state` (second
definition): one entry per truthy record, saving `src`, `group`, `offset`
and `block_size` — but not `src_io`. -/
def getConnectionsDict : Conns → List (PyStr × PyDict)
  | [] => []
  | (io, some rec') :: rest =>
      (io, [(pystr "src", rec'.src), (pystr "group", rec'.mcast_group),
            (pystr "offset", rec'.block_offset),
            (pystr "block_size", rec'.block_size)]) :: getConnectionsDict rest
  | (_, none) :: rest => getConnectionsDict rest

/-- `PatchProtocol.get_state` (second, winning definition). -/
def getState (m : PatchModule) : PatchState :=
  { controls := m.controls, connections := getConnectionsDict m.input_connections }

/-- Numeric view of a control value (Python `bool` counts as a number;
floating point is outside the model — the failing input carries no
controls). -/
def asInt : Jx → Option Int
  | .jint n => some n
  | .jbool b => some (if b then 1 else 0)
  | _ => none

/-- `max(lo, min(hi, float(v)))` for integer-valued controls. -/
def clampJx (lo hi v : Jx) : Jx :=
  match asInt lo, asInt hi, asInt v with
  | some l, some h, some x => .jint (max l (min h x))
  | _, _, _ => .jnull

/-- Python dict assignment on a `PyDict`. -/
def pySet (d : PyDict) (k : PyStr) (v : Jx) : PyDict :=
  match d with
  | [] => [(k, v)]
  | (k', v') :: rest => if k' = k then (k, v) :: rest else (k', v') :: pySet rest k v

/-- Step 1 of `restore_patch`: restore every saved control whose key has a
registered range, clamped into that range. -/
def restoreControls (ranges : List (PyStr × (Jx × Jx))) (controls : PyDict) :
    PyDict → PyDict
  | [] => controls
  | (k, v) :: rest =>
      match ranges.find? (fun p => p.1 = k) with
      | some (_, lo, hi) => restoreControls ranges (pySet controls k (clampJx lo hi v)) rest
      | none => restoreControls ranges controls rest

/-- Set the state of the jack registered under `io`
(`self.input_jacks[io].state = ...`). -/
def setJackState (js : List InputJack) (io : PyStr) (st : InputState) : List InputJack :=
  js.map (fun j => if j.io_id = io then { j with state := st } else j)

/-- Step 2 of `restore_patch`: for every key of `input_connections`, put
the jack (if any) into `IIdleDisconnected` with its LED, call the no-op
`PatchProtocol._stop_receiver`, and null the stored record. -/
def wipeConnections (m : PatchModule) : PatchModule × List (PyStr × LedState) :=
  m.input_connections.foldl
    (fun acc kv =>
      let io := kv.1
      let hasJack := acc.1.input_jacks.any (fun j => j.io_id = io)
      ({ acc.1 with
          input_jacks :=
            if hasJack then setJackState acc.1.input_jacks io .IIdleDisconnected
            else acc.1.input_jacks
          input_connections := dictSet acc.1.input_connections io none },
       if hasJack then acc.2 ++ [(io, inputLed .IIdleDisconnected)] else acc.2))
    (m, [])

/-- Outcome of `restore_patch`. -/
structure RestoreResult where
  m : PatchModule
  leds : List (PyStr × LedState) := []
  raised : Bool := false
deriving DecidableEq, Repr

/-- Step 3 of `restore_patch` on a concrete module.  For the first saved,
truthy connection of a registered input the re-created record is stored —
and then `self._start_receiver(io, rec.mcast_group, rec.block_offset,
rec.block_size)` raises `TypeError`: every concrete module's
`_start_receiver(self, io, group)` takes two arguments, not four.  The
keys `src` and `group` are always present in a state saved by
`get_state`. -/
def restoreSavedConns (m : PatchModule) : List (PyStr × PyDict) → RestoreResult
  | [] => { m := m }
  | (io, info) :: rest =>
      if (tblGet m.inputs io).isSome ∧ info ≠ [] then
        let rec' : ConnectionRecord :=
          { src := pyGetD info (pystr "src") .jnull
            src_io := pyGetD info (pystr "src_io") (.jstr [])
            mcast_group := pyGetD info (pystr "group") .jnull
            block_offset := pyGetD info (pystr "offset") (.jint 0)
            block_size := pyGetD info (pystr "block_size") (.jint 96) }
        { m := { m with input_connections := dictSet m.input_connections io (some rec') }
          raised := true }
      else
        restoreSavedConns m rest

/-- `PatchProtocol.restore_patch` as inherited by the concrete modules.
A state saved by `get_state` carries no `target_mod`, so the early-return
guard never fires for a round trip. -/
def restorePatch (m : PatchModule) (data : PatchState) : RestoreResult :=
  let m1 := { m with controls := restoreControls m.control_ranges m.controls data.controls }
  let w := wipeConnections m1
  let r := restoreSavedConns w.1 data.connections
  { r with leds := w.2 ++ r.leds }

/-- An `AudioOutModule`-shaped patch module whose `left` input is
connected to `osc_0:audio` — a perfectly ordinary reachable state. -/
def audioOutPM : PatchModule :=
  { module_id := pystr "audio_out_0"
    controls := []
    control_ranges := []
    inputs := [(pystr "left", [(pystr "type", .jstr (pystr "audio")),
                               (pystr "group", .jstr (pystr "239.100.2.150"))]),
               (pystr "right", [(pystr "type", .jstr (pystr "audio")),
                                (pystr "group", .jstr (pystr "239.100.2.151"))])]
    input_jacks := [{ io_id := pystr "left", state := .IIdleConnected,
                      connected_src := .jstr (pystr "osc_0"),
                      connected_src_io := .jstr (pystr "audio"),
                      connected_mcast := .jstr (pystr "239.100.2.150"),
                      connected_offset := .jint 0,
                      connected_block_size := .jint 96 },
                    { io_id := pystr "right" }]
    input_connections :=
      [(pystr "left", some { src := .jstr (pystr "osc_0"),
                             src_io := .jstr (pystr "audio"),
                             mcast_group := .jstr (pystr "239.100.2.150"),
                             block_offset := .jint 0, block_size := .jint 96 }),
       (pystr "right", none)] }

/-! ## Concrete fixtures used by counterexamples and witnesses -/

/-- An oscillator-like module context (`OscModule`: one `audio` output). -/
def oscCtx : ModuleCtx :=
  { module_id := pystr "osc_0"
    mtype := pystr "osc"
    mcast_group := pystr "239.100.0.100"
    outputs := [(pystr "audio", [(pystr "type", .jstr (pystr "audio")),
                                 (pystr "group", .jstr (pystr "239.100.2.150"))])] }

def oscCtx1 : ModuleCtx :=
  { oscCtx with module_id := pystr "osc_1" }

/-- The input side of an `OscModule`-shaped module (one `fm` CV input),
backed by the module.py façade. -/
def oscInCtx : ModuleCtx :=
  { module_id := pystr "osc_0"
    mtype := pystr "osc"
    mcast_group := pystr "239.100.0.100"
    inputs := [(pystr "fm", [(pystr "type", .jstr (pystr "cv")),
                             (pystr "group", .jstr (pystr "239.100.1.1"))])] }

/-- An `LfoModule`-shaped module (one `cv` output). -/
def lfoCtx : ModuleCtx :=
  { module_id := pystr "lfo_0"
    mtype := pystr "lfo"
    mcast_group := pystr "239.100.0.101"
    outputs := [(pystr "cv", [(pystr "type", .jstr (pystr "cv")),
                              (pystr "group", .jstr (pystr "239.100.1.1"))])] }

/-- The `INITIATE` the LFO's `cv` output broadcasts. -/
def lfoInitMsg : FsmMsg := sendInitiateMsg lfoCtx (pystr "cv")

/-- An `INITIATE` of the wrong payload type for the `fm` input. -/
def audioInitMsg : FsmMsg :=
  { type := MT_INITIATE
    module_id := pystr "osc_9"
    io_type := 2
    io_id := pystr "audio"
    payload := [(pystr "type", .jstr (pystr "audio")),
                (pystr "group", .jstr (pystr "239.100.2.150")),
                (pystr "offset", .jint 0),
                (pystr "block_size", .jint 96)] }

/-! ## UTF-8 and the `json` module's byte handling

Needed by the wire codec (`connection_protocol.ProtocolMessage`). -/

/-- `str.encode('utf-8')` for one code point.  Python raises on
surrogates; the theorems that use this restrict to scalar values (the
formula below is total for definiteness). -/
def utf8EncodeChar (c : Nat) : List Nat :=
  if c < 0x80 then [c]
  else if c < 0x800 then [0xC0 + c / 64, 0x80 + c % 64]
  else if c < 0x10000 then [0xE0 + c / 4096, 0x80 + c / 64 % 64, 0x80 + c % 64]
  else [0xF0 + c / 262144, 0x80 + c / 4096 % 64, 0x80 + c / 64 % 64, 0x80 + c % 64]

def utf8Encode (s : PyStr) : List Nat := (s.map utf8EncodeChar).flatten

/-- One decoding step of UTF-8 at lead byte `b` with lookahead `rest`:
the decoded code point (or `none` for an ill-formed subsequence) together
with the number of continuation bytes consumed — on an error, the bytes of
the maximal subpart beyond the lead, where Python resumes. -/
def utf8Step (b : Nat) (rest : List Nat) : Option Nat × Nat :=
  if b < 0x80 then (some b, 0)
  else if 0xC2 ≤ b ∧ b ≤ 0xDF then
    match rest with
    | b1 :: _ =>
      if 0x80 ≤ b1 ∧ b1 ≤ 0xBF then (some ((b - 0xC0) * 64 + (b1 - 0x80)), 1)
      else (none, 0)
    | [] => (none, 0)
  else if 0xE0 ≤ b ∧ b ≤ 0xEF then
    match rest with
    | b1 :: rest1 =>
      if (if b = 0xE0 then 0xA0 else 0x80) ≤ b1 ∧ b1 ≤ (if b = 0xED then 0x9F else 0xBF) then
        match rest1 with
        | b2 :: _ =>
          if 0x80 ≤ b2 ∧ b2 ≤ 0xBF then
            (some ((b - 0xE0) * 4096 + (b1 - 0x80) * 64 + (b2 - 0x80)), 2)
          else (none, 1)
        | [] => (none, 1)
      else (none, 0)
    | [] => (none, 0)
  else if 0xF0 ≤ b ∧ b ≤ 0xF4 then
    match rest with
    | b1 :: rest1 =>
      if (if b = 0xF0 then 0x90 else 0x80) ≤ b1 ∧ b1 ≤ (if b = 0xF4 then 0x8F else 0xBF) then
        match rest1 with
        | b2 :: rest2 =>
          if 0x80 ≤ b2 ∧ b2 ≤ 0xBF then
            match rest2 with
            | b3 :: _ =>
              if 0x80 ≤ b3 ∧ b3 ≤ 0xBF then
                (some ((b - 0xF0) * 262144 + (b1 - 0x80) * 4096 + (b2 - 0x80) * 64 + (b3 - 0x80)), 3)
              else (none, 2)
            | [] => (none, 2)
          else (none, 1)
        | [] => (none, 1)
      else (none, 0)
    | [] => (none, 0)
  else (none, 0)

/-- `bytes.decode('utf-8', errors='replace')`: one U+FFFD per maximal
subpart of an ill-formed subsequence (CPython's behaviour).  Fuelled; each
step consumes at least one byte, so length-plus-one units suffice. -/
def utf8DecodeReplaceF : Nat → List Nat → List Nat
  | 0, _ => []
  | _ + 1, [] => []
  | fuel + 1, b :: rest =>
    let s := utf8Step b rest
    (match s.1 with | some c => c | none => 0xFFFD) :: utf8DecodeReplaceF fuel (rest.drop s.2)

def utf8DecodeReplace (l : List Nat) : List Nat := utf8DecodeReplaceF (l.length + 1) l

/-- As `utf8Step`, but with the `surrogatepass` handler (what `json.loads`
applies to `bytes` input): encoded surrogates `ED A0..BF 80..BF` are
allowed through; everything else ill-formed is an error. -/
def utf8SPStep (b : Nat) (rest : List Nat) : Option (Nat × Nat) :=
  if b = 0xED then
    match rest with
    | b1 :: b2 :: _ =>
      if (0x80 ≤ b1 ∧ b1 ≤ 0xBF) ∧ (0x80 ≤ b2 ∧ b2 ≤ 0xBF) then
        some ((b - 0xE0) * 4096 + (b1 - 0x80) * 64 + (b2 - 0x80), 2)
      else none
    | _ => none
  else
    match utf8Step b rest with
    | (some c, k) => some (c, k)
    | (none, _) => none

/-- Strict UTF-8 decoding with `surrogatepass`; `none` models an uncaught
`UnicodeDecodeError`.  Fuelled as `utf8DecodeReplaceF`. -/
def utf8DecodeSPF : Nat → List Nat → Option (List Nat)
  | 0, _ => none
  | _ + 1, [] => some []
  | fuel + 1, b :: rest =>
    match utf8SPStep b rest with
    | none => none
    | some (c, k) => (utf8DecodeSPF fuel (rest.drop k)).map (c :: ·)

def utf8DecodeSP (l : List Nat) : Option (List Nat) := utf8DecodeSPF (l.length + 1) l

/-- The encodings `json.detect_encoding` can choose. -/
inductive JsonEnc where
  | utf8 | utf8sig | utf16 | utf32 | utf16be | utf16le | utf32be | utf32le
deriving DecidableEq, Repr

/-- `json.detect_encoding` (CPython). -/
def detectEncoding (b : List Nat) : JsonEnc :=
  match b with
  | 0x00 :: 0x00 :: 0xFE :: 0xFF :: _ => .utf32
  | 0xFF :: 0xFE :: 0x00 :: 0x00 :: _ => .utf32
  | 0xFE :: 0xFF :: _ => .utf16
  | 0xFF :: 0xFE :: _ => .utf16
  | 0xEF :: 0xBB :: 0xBF :: _ => .utf8sig
  | b0 :: b1 :: b2 :: b3 :: _ =>
    if b0 = 0 then (if b1 ≠ 0 then .utf16be else .utf32be)
    else if b1 = 0 then (if b2 = 0 ∧ b3 = 0 then .utf32le else .utf16le)
    else .utf8
  | [b0, b1] =>
    if b0 = 0 then .utf16be
    else if b1 = 0 then .utf16le
    else .utf8
  | _ => .utf8

/-- Pair up UTF-16 code units into code points (valid surrogate pairs
combine; lone surrogates pass, per `surrogatepass`). -/
def utf16CombineF : Nat → List Nat → List Nat
  | 0, _ => []
  | _ + 1, [] => []
  | fuel + 1, u :: rest =>
    let pair : Option Nat :=
      match rest with
      | u2 :: _ =>
        if (0xD800 ≤ u ∧ u ≤ 0xDBFF) ∧ (0xDC00 ≤ u2 ∧ u2 ≤ 0xDFFF) then some u2 else none
      | [] => none
    match pair with
    | some u2 =>
        (0x10000 + (u - 0xD800) * 1024 + (u2 - 0xDC00)) :: utf16CombineF fuel (rest.drop 1)
    | none => u :: utf16CombineF fuel rest

def utf16Combine (l : List Nat) : List Nat := utf16CombineF (l.length + 1) l

/-- UTF-16 code units from bytes (`swap` = little endian); odd trailing
byte is a decode error. -/
def utf16Units (swap : Bool) : List Nat → Option (List Nat)
  | [] => some []
  | [_] => none
  | hi :: lo :: rest =>
      let u := if swap then lo * 256 + hi else hi * 256 + lo
      (utf16Units swap rest).map (u :: ·)

/-- UTF-32 code points from bytes (`swap` = little endian); trailing bytes
or values above U+10FFFF are decode errors (surrogates pass). -/
def utf32Units (swap : Bool) : List Nat → Option (List Nat)
  | [] => some []
  | b0 :: b1 :: b2 :: b3 :: rest =>
      let u := if swap then b3 * 16777216 + b2 * 65536 + b1 * 256 + b0
               else b0 * 16777216 + b1 * 65536 + b2 * 256 + b3
      if u ≤ 0x10FFFF then (utf32Units swap rest).map (u :: ·) else none
  | _ => none

/-- Decode `bytes` as `json.loads` would, after `detect_encoding`
(`surrogatepass` everywhere). -/
def jsonDecodeBytes (b : List Nat) : Option (List Nat) :=
  match detectEncoding b with
  | .utf8 => utf8DecodeSP b
  | .utf8sig => utf8DecodeSP (b.drop 3)
  | .utf16 =>
    match b with
    | 0xFE :: 0xFF :: rest => (utf16Units false rest).map utf16Combine
    | 0xFF :: 0xFE :: rest => (utf16Units true rest).map utf16Combine
    | _ => none
  | .utf32 =>
    match b with
    | 0x00 :: 0x00 :: 0xFE :: 0xFF :: rest => utf32Units false rest
    | 0xFF :: 0xFE :: 0x00 :: 0x00 :: rest => utf32Units true rest
    | _ => none
  | .utf16be => (utf16Units false b).map utf16Combine
  | .utf16le => (utf16Units true b).map utf16Combine
  | .utf32be => utf32Units false b
  | .utf32le => utf32Units true b

/-! ## `json.dumps(..., separators=(',', ':'))` and `json.loads`

The compact serializer used by `ProtocolMessage.pack` and the parser
applied by `ProtocolMessage.unpack`.  `json.dumps` is modelled with its
default `ensure_ascii=True`, so the output is pure ASCII.  Floating point
numbers are outside the model: the serializer never produces them (`Jx`
has no floats) and the parser treats a number with a fraction or exponent
as unparsed. -/

/-- One lowercase hex digit character. -/
def hexDigit (n : Nat) : Nat := if n < 10 then 48 + n else 87 + n

/-- `%04x` of a value below 0x10000. -/
def hex4 (n : Nat) : List Nat :=
  [hexDigit (n / 4096 % 16), hexDigit (n / 256 % 16), hexDigit (n / 16 % 16), hexDigit (n % 16)]

/-- `json.encoder.py_encode_basestring_ascii`, one character: `\` and `"`
and the control shortcuts escape, other characters outside `0x20..0x7E`
become `\uXXXX` (a surrogate pair above U+FFFF), the rest pass. -/
def escChar (c : Nat) : List Nat :=
  if c = 0x5C then [0x5C, 0x5C]
  else if c = 0x22 then [0x5C, 0x22]
  else if c = 8 then [0x5C, 98]
  else if c = 9 then [0x5C, 116]
  else if c = 10 then [0x5C, 110]
  else if c = 12 then [0x5C, 102]
  else if c = 13 then [0x5C, 114]
  else if c < 0x20 ∨ 0x7E < c then
    if c < 0x10000 then 0x5C :: 117 :: hex4 c
    else (0x5C :: 117 :: hex4 (0xD800 + (c - 0x10000) / 1024)) ++
         (0x5C :: 117 :: hex4 (0xDC00 + (c - 0x10000) % 1024))
  else [c]

/-- A JSON string literal: quote, escaped characters, quote. -/
def escString (s : PyStr) : List Nat := 0x22 :: (s.map escChar).flatten ++ [0x22]

/-- The decimal digit characters of a natural number (fuelled so that the
kernel can evaluate it; `n + 1` units always suffice). -/
def natDigitsF : Nat → Nat → List Nat
  | 0, _ => []
  | fuel + 1, n =>
    if n < 10 then [48 + n]
    else natDigitsF fuel (n / 10) ++ [48 + n % 10]

def natDigits (n : Nat) : List Nat := natDigitsF (n + 1) n

/-- `repr` of a Python int. -/
def intChars : Int → List Nat
  | .ofNat n => natDigits n
  | .negSucc m => 45 :: natDigits (m + 1)

mutual
/-- `json.dumps(v, separators=(',', ':'))` as a character sequence. -/
def Jx.dumps : Jx → List Nat
  | .jnull => pystr "null"
  | .jbool true => pystr "true"
  | .jbool false => pystr "false"
  | .jint n => intChars n
  | .jstr s => escString s
  | .jarr l => 91 :: JxList.dumps l ++ [93]
  | .jobj o => 123 :: JxObj.dumps o ++ [125]

/-- Array elements, comma separated. -/
def JxList.dumps : JxList → List Nat
  | .nil => []
  | .cons x .nil => Jx.dumps x
  | .cons x (.cons y t) => Jx.dumps x ++ 44 :: JxList.dumps (.cons y t)

/-- Object members, `key:value`, comma separated. -/
def JxObj.dumps : JxObj → List Nat
  | .onil => []
  | .ocons k v .onil => escString k ++ 58 :: Jx.dumps v
  | .ocons k v (.ocons k' v' t) =>
      escString k ++ 58 :: Jx.dumps v ++ 44 :: JxObj.dumps (.ocons k' v' t)
end

/-- The value of a hex digit character. -/
def hexVal (c : Nat) : Option Nat :=
  if 48 ≤ c ∧ c ≤ 57 then some (c - 48)
  else if 97 ≤ c ∧ c ≤ 102 then some (c - 87)
  else if 65 ≤ c ∧ c ≤ 70 then some (c - 55)
  else none

/-- The value of the first four characters read as hex (`_decode_uXXXX`). -/
def u4Val : List Nat → Option Nat
  | h1 :: h2 :: h3 :: h4 :: _ =>
    match hexVal h1, hexVal h2, hexVal h3, hexVal h4 with
    | some a, some b, some c, some d => some (a * 4096 + b * 256 + c * 16 + d)
    | _, _, _, _ => none
  | _ => none

def isWsChar (c : Nat) : Bool := c = 32 || c = 9 || c = 10 || c = 13

/-- Skip JSON whitespace. -/
def skipWs : List Nat → List Nat
  | [] => []
  | c :: rest => if isWsChar c then skipWs rest else c :: rest

def isDigitChar (c : Nat) : Bool := 48 ≤ c && c ≤ 57

/-- Consume a maximal run of decimal digits. -/
def digitsVal (acc : Nat) : List Nat → Nat × List Nat
  | [] => (acc, [])
  | c :: rest =>
    if isDigitChar c then digitsVal (acc * 10 + (c - 48)) rest else (acc, c :: rest)

/-- Finish a JSON number after its integer part: a following `.`, `e` or
`E` would make it a float, which is outside the model (treated as
unparsed). -/
def finishNum (neg : Bool) (v : Nat) (s : List Nat) : Option (Jx × List Nat) :=
  match s with
  | c :: _ =>
    if c = 46 ∨ c = 101 ∨ c = 69 then none
    else some (.jint (if neg then -(v : Int) else (v : Int)), s)
  | [] => some (.jint (if neg then -(v : Int) else (v : Int)), [])

/-- Parse the integer part of a JSON number (`0` or a nonzero-led digit
run, per the JSON grammar's `(?:0|[1-9]\d*)`). -/
def parseNumberTail (neg : Bool) : List Nat → Option (Jx × List Nat)
  | [] => none
  | c :: rest =>
    if c = 48 then finishNum neg 0 rest
    else if isDigitChar c then
      let p := digitsVal (c - 48) rest
      finishNum neg p.1 p.2
    else none

/-- `json.scanner.py_scanstring` after the opening quote: strict mode
(control characters are invalid), the standard escapes, `\uXXXX` with
CPython's surrogate-pair combination (a high surrogate followed by a
`\uXXXX` low surrogate combines; otherwise it is kept as read).  Fuelled
(each step consumes at least one character, so the caller's fuel — at
least the input length plus one — always suffices). -/
def parseStr : Nat → List Nat → Option (PyStr × List Nat)
  | 0, _ => none
  | _ + 1, [] => none
  | fuel + 1, c :: rest =>
    if c = 0x22 then some ([], rest)
    else if c = 0x5C then
      match rest with
      | [] => none
      | e :: rest1 =>
        if e = 0x22 ∨ e = 0x5C ∨ e = 0x2F then
          (parseStr fuel rest1).map (fun p => (e :: p.1, p.2))
        else if e = 98 then (parseStr fuel rest1).map (fun p => (8 :: p.1, p.2))
        else if e = 116 then (parseStr fuel rest1).map (fun p => (9 :: p.1, p.2))
        else if e = 110 then (parseStr fuel rest1).map (fun p => (10 :: p.1, p.2))
        else if e = 102 then (parseStr fuel rest1).map (fun p => (12 :: p.1, p.2))
        else if e = 114 then (parseStr fuel rest1).map (fun p => (13 :: p.1, p.2))
        else if e = 117 then
          match u4Val rest1 with
          | none => none
          | some u =>
            if 0xD800 ≤ u ∧ u ≤ 0xDBFF then
              match rest1.drop 4 with
              | 0x5C :: 117 :: r3 =>
                match u4Val r3 with
                | none => none
                | some u2 =>
                  if 0xDC00 ≤ u2 ∧ u2 ≤ 0xDFFF then
                    (parseStr fuel (rest1.drop 10)).map (fun p =>
                      ((0x10000 + (u - 0xD800) * 1024 + (u2 - 0xDC00)) :: p.1, p.2))
                  else (parseStr fuel (rest1.drop 4)).map (fun p => (u :: p.1, p.2))
              | _ => (parseStr fuel (rest1.drop 4)).map (fun p => (u :: p.1, p.2))
            else (parseStr fuel (rest1.drop 4)).map (fun p => (u :: p.1, p.2))
        else none
    else if c < 0x20 then none
    else (parseStr fuel rest).map (fun p => (c :: p.1, p.2))

mutual
/-- One JSON value (`json.scanner.py_make_scanner`), fuelled: the fuel
only bounds nesting and is in practice at least the input length. -/
def parseVal : Nat → List Nat → Option (Jx × List Nat)
  | 0, _ => none
  | _ + 1, [] => none
  | fuel + 1, c :: rest =>
    if c = 0x22 then (parseStr fuel rest).map (fun p => (Jx.jstr p.1, p.2))
    else if c = 123 then
      match skipWs rest with
      | 125 :: r2 => some (.jobj .onil, r2)
      | r => parseObjItems fuel r
    else if c = 91 then
      match skipWs rest with
      | 93 :: r2 => some (.jarr .nil, r2)
      | r => parseArrItems fuel r
    else if c = 110 then
      match rest with
      | 117 :: 108 :: 108 :: r => some (.jnull, r)
      | _ => none
    else if c = 116 then
      match rest with
      | 114 :: 117 :: 101 :: r => some (.jbool true, r)
      | _ => none
    else if c = 102 then
      match rest with
      | 97 :: 108 :: 115 :: 101 :: r => some (.jbool false, r)
      | _ => none
    else if c = 45 then parseNumberTail true rest
    else if isDigitChar c then parseNumberTail false (c :: rest)
    else none

/-- The members of a non-empty JSON object, starting at the first key. -/
def parseObjItems : Nat → List Nat → Option (Jx × List Nat)
  | 0, _ => none
  | fuel + 1, s =>
    match s with
    | 0x22 :: r =>
      match parseStr fuel r with
      | none => none
      | some (k, r1) =>
        match skipWs r1 with
        | 58 :: r2 =>
          match parseVal fuel (skipWs r2) with
          | none => none
          | some (v, r3) =>
            match skipWs r3 with
            | 44 :: r4 =>
              match parseObjItems fuel (skipWs r4) with
              | some (.jobj o, r5) => some (.jobj (.ocons k v o), r5)
              | _ => none
            | 125 :: r4 => some (.jobj (.ocons k v .onil), r4)
            | _ => none
        | _ => none
    | _ => none

/-- The elements of a non-empty JSON array, starting at the first value. -/
def parseArrItems : Nat → List Nat → Option (Jx × List Nat)
  | 0, _ => none
  | fuel + 1, s =>
    match parseVal fuel s with
    | none => none
    | some (v, r) =>
      match skipWs r with
      | 44 :: r2 =>
        match parseArrItems fuel (skipWs r2) with
        | some (.jarr l, r3) => some (.jarr (.cons v l), r3)
        | _ => none
      | 93 :: r2 => some (.jarr (.cons v .nil), r2)
      | _ => none
end

/-- Unicode scalar values: what a well-behaved Python string holds (the
`json` codec round-trips exactly these; CPython collapses an adjacent
high/low surrogate pair on reading back). -/
def scalarStr (s : PyStr) : Bool :=
  s.all (fun c => c < 0x110000 && !(0xD800 ≤ c && c ≤ 0xDFFF))

mutual
/-- Every string in the value (keys included) consists of Unicode scalar
values. -/
def Jx.scalarOK : Jx → Bool
  | .jnull => true
  | .jbool _ => true
  | .jint _ => true
  | .jstr s => scalarStr s
  | .jarr l => JxList.scalarOK l
  | .jobj o => JxObj.scalarOK o

def JxList.scalarOK : JxList → Bool
  | .nil => true
  | .cons x t => Jx.scalarOK x && JxList.scalarOK t

def JxObj.scalarOK : JxObj → Bool
  | .onil => true
  | .ocons k v t => scalarStr k && Jx.scalarOK v && JxObj.scalarOK t
end

/-- The characters that may legally follow a JSON integer (so that the
maximal-run number scan stops exactly there). -/
def numEnd (s : List Nat) : Bool :=
  match s with
  | [] => true
  | c :: _ => !(isDigitChar c || c = 46 || c = 101 || c = 69)

/-- The characters a serialized JSON value can start with. -/
def valHead (c : Nat) : Bool :=
  c = 34 || c = 123 || c = 91 || c = 110 || c = 116 || c = 102 || c = 45 || isDigitChar c

/-- `json.loads` on text: skip whitespace, parse one value, require the
rest to be whitespace; `none` models a (caught) `JSONDecodeError`. -/
def jsonParse (cs : List Nat) : Option Jx :=
  match parseVal (cs.length + 1) (skipWs cs) with
  | some (v, rest) => if skipWs rest = [] then some v else none
  | none => none

/-- `json.loads` on `bytes`: decode per `detect_encoding` (with
`surrogatepass`), then parse.  `.error` models the *uncaught*
`UnicodeDecodeError`; `.ok none` the caught `JSONDecodeError`. -/
def jsonLoadsBytes (b : List Nat) : Except Unit (Option Jx) :=
  match jsonDecodeBytes b with
  | none => .error ()
  | some cs => .ok (jsonParse cs)

/-! ## The wire codec (`connection_protocol.ProtocolMessage`) -/

structure WireMsg where
  type : Nat
  module_id : PyStr
  io_type : Nat := 0
  io_id : PyStr := []
  payload : Jx := .jobj .onil
deriving DecidableEq, Repr

/-- `ProtocolMessage.__init__` for an integer `io_type` source: `type` and
`io_type` are masked to a byte; a falsy payload is replaced by `{}`
(`self.payload = payload or {}`). -/
def mkProtocolMessage (t : Nat) (mod : PyStr) (ioty : Nat) (io : PyStr) (p : Jx) : WireMsg :=
  { type := t % 256, module_id := mod, io_type := ioty % 256, io_id := io
    payload := if pyTruthy p then p else .jobj .onil }

/-- `ProtocolMessage.pack`: the 8-byte `!BHBHH` header holds the *string*
lengths of `module_id`/`io_id` (`len(self.module_id)`, i.e. code points)
while the body holds their UTF-8 *bytes*; `struct.pack` raises (`none`)
when a length exceeds a `uint16` or a type value a `uint8`. -/
def pack (msg : WireMsg) : Option (List Nat) :=
  let payloadBytes := utf8Encode (Jx.dumps msg.payload)
  let modLen := msg.module_id.length
  let ioLen := msg.io_id.length
  let payLen := payloadBytes.length
  if msg.type < 256 ∧ modLen < 65536 ∧ msg.io_type < 256 ∧ ioLen < 65536 ∧ payLen < 65536 then
    some ([msg.type, modLen / 256, modLen % 256, msg.io_type,
           ioLen / 256, ioLen % 256, payLen / 256, payLen % 256]
          ++ utf8Encode msg.module_id ++ utf8Encode msg.io_id ++ payloadBytes)
  else
    none

/-- The sentinel `ProtocolMessage(0, "bad", IOType.UNKNOWN, "")` returned
for datagrams shorter than 8 bytes. -/
def badMsg : WireMsg := mkProtocolMessage 0 (pystr "bad") 0 [] .jnull

/-- `ProtocolMessage.unpack`.  Total up to the one exception the source
does not catch: `json.loads` on an undecodable payload slice raises
`UnicodeDecodeError` (modelled `.error ()`).  `struct.error` and
`json.JSONDecodeError` are caught; string fields are decoded with
`errors='replace'` and truncated to the available bytes; a payload that
overruns the datagram is skipped. -/
def unpack (data : List Nat) : Except Unit WireMsg :=
  if data.length < 8 then .ok badMsg
  else
    let msgType := data.getD 0 0
    let modLen := data.getD 1 0 * 256 + data.getD 2 0
    let ioTypeByte := data.getD 3 0
    let ioLen := data.getD 4 0 * 256 + data.getD 5 0
    let payLen := data.getD 6 0 * 256 + data.getD 7 0
    let body := data.drop 8
    let modBytes := body.take modLen
    let rest1 := body.drop modLen
    let ioBytes := rest1.take ioLen
    let rest2 := rest1.drop ioLen
    if payLen ≠ 0 ∧ payLen ≤ rest2.length then
      match jsonLoadsBytes (rest2.take payLen) with
      | .error _ => .error ()
      | .ok op =>
          .ok (mkProtocolMessage msgType (utf8DecodeReplace modBytes) ioTypeByte
                (utf8DecodeReplace ioBytes) (op.getD (.jobj .onil)))
    else
      .ok (mkProtocolMessage msgType (utf8DecodeReplace modBytes) ioTypeByte
            (utf8DecodeReplace ioBytes) (.jobj .onil))

instance {ε α : Type} [DecidableEq ε] [DecidableEq α] : DecidableEq (Except ε α) := fun a b =>
  match a, b with
  | .error e, .error e' => decidable_of_iff (e = e') (by simp)
  | .ok x, .ok y => decidable_of_iff (x = y) (by simp)
  | .error _, .ok _ => isFalse (fun hc => by cases hc)
  | .ok _, .error _ => isFalse (fun hc => by cases hc)

/-- A `JxObj` as a top-level dictionary. -/
def JxObj.toList : JxObj → PyDict
  | .onil => []
  | .ocons k v t => (k, v) :: toList t

/-- A wire message as the jack handlers see it (`handle_msg` hands the
decoded object to the jacks, which read the payload as a dictionary; a
truthy non-dict payload would fault their `.get` calls and is outside
this bridge). -/
def wireToFsm (m : WireMsg) : FsmMsg :=
  { type := m.type, module_id := m.module_id, io_type := m.io_type, io_id := m.io_id
    payload := match m.payload with | .jobj o => o.toList | _ => [] }

/-- `ConnectionProtocol.handle_msg`: jack dispatch per message type.
`CONNECT` is explicitly ignored ("only for debugging"); `STATE_INQUIRY`
answers with a state report and `SHOW_CONNECTED` only flashes a LED —
neither, nor an unknown type (such as the sentinel's type 0), changes any
jack state. -/
def moduleDispatch (mctx : ModuleCtx) (ins : List InputJack) (outs : List OutputJack)
    (conns : Conns) (msg : FsmMsg) : List InputJack × List OutputJack :=
  if msg.type = MT_INITIATE then
    (ins.map (fun j => (inputOnInitiate mctx j conns msg).jack),
     outs.map (fun j => (outputOnInitiate mctx j msg).jack))
  else if msg.type = MT_CANCEL then
    moduleHandleCancel ins outs conns
  else if msg.type = MT_COMPATIBLE then
    (ins, outs.map (fun j => (outputOnCompatible mctx j msg).jack))
  else (ins, outs)

/-! ## Codec fixtures and the `unpack` field extractors -/

/-- A message whose `module_id` is the single non-ASCII character é
(U+00E9): its string length is 1 but its UTF-8 encoding is 2 bytes. -/
def c8msg : WireMsg := mkProtocolMessage 1 [0xE9] 1 (pystr "cv") (.jobj .onil)

/-- What `unpack(pack(c8msg))` actually returns: the length mismatch makes
`unpack` read only the first byte of the 2-byte é, leaving `module_id` as
U+FFFD, pushing the stray continuation byte into `io_id`, and shifting the
payload window off the JSON text. -/
def c8msgCorrupted : WireMsg :=
  mkProtocolMessage 1 [0xFFFD] 1 [0xFFFD, 99] (.jobj .onil)

/-- An 8-byte header followed by a body: an `INITIATE` (type 1) whose
1-byte `module_id` is the invalid UTF-8 byte `0xFF` and whose 2-byte
payload `xx` is not JSON. -/
def c9data : List Nat := [1, 0, 1, 0, 0, 0, 0, 2, 0xFF, 120, 120]

/-- `mod_len` as `unpack` reads it from the header (network byte order). -/
abbrev hdrModLen (data : List Nat) : Nat := data.getD 1 0 * 256 + data.getD 2 0

/-- `io_len` as `unpack` reads it from the header. -/
abbrev hdrIoLen (data : List Nat) : Nat := data.getD 4 0 * 256 + data.getD 5 0

/-- `payload_len` as `unpack` reads it from the header. -/
abbrev hdrPayLen (data : List Nat) : Nat := data.getD 6 0 * 256 + data.getD 7 0

/-- The bytes `read_str(mod_len)` consumes (truncated to the datagram). -/
abbrev modSlice (data : List Nat) : List Nat := (data.drop 8).take (hdrModLen data)

/-- The bytes `read_str(io_len)` consumes. -/
abbrev ioSlice (data : List Nat) : List Nat :=
  ((data.drop 8).drop (hdrModLen data)).take (hdrIoLen data)

/-- The payload window `data[offset:offset+payload_len]`. -/
abbrev paySlice (data : List Nat) : List Nat :=
  (((data.drop 8).drop (hdrModLen data)).drop (hdrIoLen data)).take (hdrPayLen data)

/-- The guard `payload_len and offset + payload_len <= len(data)` under
which `unpack` attempts `json.loads` at all. -/
abbrev payActive (data : List Nat) : Prop :=
  hdrPayLen data ≠ 0 ∧
    hdrPayLen data ≤ (((data.drop 8).drop (hdrModLen data)).drop (hdrIoLen data)).length

/-! ## C1 — the commit flow of `short_press` in `IPending` -/

/-- The `fm` input after receiving the LFO's matching `INITIATE`: it is in
`IPending` with the pending initiator data stored, exactly the
precondition of the claim. -/
def c1Jack : InputJack :=
  (inputOnInitiate oscInCtx { io_id := pystr "fm" } [] lfoInitMsg).jack

/-! ## C2 — LEDs as a pure function of FSM state -/

/-- Every LED event of a step reports the code's output LED table applied
to the jack's resulting state. -/
def outLedsOk (s : OutStep) : Bool :=
  s.leds.all (fun p => p.2 == outputLed s.jack.state)

/-- Every LED event of a step reports the code's input LED table applied
to the jack's resulting state. -/
def inLedsOk (s : InStep) : Bool :=
  s.leds.all (fun p => p.2 == inputLed s.jack.state)

/-! ## C6 — global effect of an inbound `CANCEL` -/

/-- The claim's (and §4.3 table's) per-state result of an inbound
`CANCEL` on an input, written from the claim's words. -/
def claimCancelInput : InputState → InputState
  | .IPending => .IIdleDisconnected
  | .ISelfCompatible => .IIdleDisconnected
  | .IOtherCompatible => .IIdleDisconnected
  | .IPendingSame => .IIdleConnected
  | .IOtherPending => .IIdleConnected
  | s => s

/-- States the claim forbids after a `CANCEL` (output side). -/
def transientOut : OutputState → Bool
  | .OIdle => false
  | _ => true

/-- States the claim forbids after a `CANCEL` (input side). -/
def transientIn : InputState → Bool
  | .IIdleConnected => false
  | .IIdleDisconnected => false
  | _ => true


/-! ## Theorems -/

theorem pyLt_total (xs ys : PyStr) : xs = ys ∨ pyLt xs ys = true ∨ pyLt ys xs = true := by
  induction xs generalizing ys with
  | nil => cases ys with
    | nil => exact Or.inl rfl
    | cons b bs => exact Or.inr (Or.inl rfl)
  | cons a as' ih =>
    cases ys with
    | nil => exact Or.inr (Or.inr rfl)
    | cons b bs =>
      rcases Nat.lt_trichotomy a b with h | h | h
      · refine Or.inr (Or.inl ?_)
        simp [pyLt, h]
      · subst h
        rcases ih bs with h2 | h2 | h2
        · exact Or.inl (by rw [h2])
        · exact Or.inr (Or.inl (by simp [pyLt, h2]))
        · exact Or.inr (Or.inr (by simp [pyLt, h2]))
      · refine Or.inr (Or.inr ?_)
        simp [pyLt, h, Nat.not_lt.mpr (Nat.le_of_lt h)]

theorem pyLt_irrefl (xs : PyStr) : pyLt xs xs = false := by
  induction xs with
  | nil => rfl
  | cons a as' ih => simp [pyLt, ih]

theorem pyLt_asymm (xs ys : PyStr) (h : pyLt xs ys = true) : pyLt ys xs = false := by
  induction xs generalizing ys with
  | nil => cases ys with
    | nil => simp [pyLt] at h
    | cons b bs => rfl
  | cons a as' ih =>
    cases ys with
    | nil => simp [pyLt] at h
    | cons b bs =>
      by_cases hab : a < b
      · simp [pyLt, hab, Nat.not_lt.mpr (Nat.le_of_lt hab)]
      · by_cases hba : b < a
        · simp [pyLt, hab, hba] at h
        · simp only [pyLt, if_neg hab, if_neg hba] at h
          simp [pyLt, hab, hba, ih bs h]

/-! ## C7 — output `short_press` in `OSelfPending` -/

/-- C7, counterexample: an output jack in `OSelfPending` that receives a
`short_press` stays in `OSelfPending` and sends nothing — the source's
`short_press` has no `OSelfPending` branch at all, so the claimed
"send `CANCEL`, return to `OIdle`" does not happen. -/
theorem c7_short_press_self_pending_counterexample :
    (outputShortPress oscCtx { io_id := pystr "audio", state := .OSelfPending }).jack.state
        ≠ OutputState.OIdle ∧
    (outputShortPress oscCtx { io_id := pystr "audio", state := .OSelfPending }).sent = [] := by
  constructor
  · decide
  · decide

/-- C7, amended: a `short_press` on an output in `OIdle` or `OCompatible`
sends one `INITIATE` and moves the jack to `OSelfPending`; in every other
state — including `OSelfPending` — the press is ignored: no message is
sent and the state is unchanged. -/
theorem c7_short_press_amended (m : ModuleCtx) (j : OutputJack) :
    (j.state = .OIdle ∨ j.state = .OCompatible →
      outputShortPress m j =
        { jack := { j with state := .OSelfPending }
          sent := [sendInitiateMsg m j.io_id]
          leds := [(j.io_id, LedState.BLINK_SLOW)] }) ∧
    (j.state ≠ .OIdle ∧ j.state ≠ .OCompatible →
      outputShortPress m j = { jack := j, sent := [], leds := [] }) := by
  constructor
  · intro h
    simp [outputShortPress, h, outputLed]
  · rintro ⟨h1, h2⟩
    simp [outputShortPress, h1, h2]

theorem c7_short_press_amended_witness :
    ((OutputJack.mk (pystr "audio") .OSelfPending).state ≠ .OIdle ∧
      (OutputJack.mk (pystr "audio") .OSelfPending).state ≠ .OCompatible) ∧
    outputShortPress oscCtx (OutputJack.mk (pystr "audio") .OSelfPending) =
      { jack := OutputJack.mk (pystr "audio") .OSelfPending, sent := [], leds := [] } :=
  ⟨⟨by decide, by decide⟩,
   (c7_short_press_amended oscCtx (OutputJack.mk (pystr "audio") .OSelfPending)).2
     ⟨by decide, by decide⟩⟩

/-! ## C3 — the `INITIATE` race tie-breaker -/

/-- C3: two outputs on distinct modules, both `OSelfPending`, each
processing the other's `INITIATE`: the jack on the lexicographically
lesser module id keeps `OSelfPending`, the other yields to
`OOtherPending`, and exactly one of the two outcomes happens; moreover an
output in `OSelfPending` yields iff the competing module id is
lexicographically lower than its own. -/
theorem c3_initiate_race (a b : ModuleCtx) (ja jb : OutputJack) (msgA msgB : FsmMsg)
    (hne : a.module_id ≠ b.module_id)
    (hja : ja.state = .OSelfPending) (hjb : jb.state = .OSelfPending)
    (hA : msgA.module_id = a.module_id) (hB : msgB.module_id = b.module_id) :
    ((outputOnInitiate a ja msgB).jack.state = .OSelfPending ↔
        pyLt a.module_id b.module_id = true) ∧
    ((outputOnInitiate b jb msgA).jack.state = .OSelfPending ↔
        pyLt b.module_id a.module_id = true) ∧
    ((outputOnInitiate a ja msgB).jack.state = .OOtherPending ↔
        pyLt b.module_id a.module_id = true) ∧
    ((outputOnInitiate b jb msgA).jack.state = .OOtherPending ↔
        pyLt a.module_id b.module_id = true) ∧
    (((outputOnInitiate a ja msgB).jack.state = .OSelfPending ∧
        (outputOnInitiate b jb msgA).jack.state = .OOtherPending) ∨
      ((outputOnInitiate a ja msgB).jack.state = .OOtherPending ∧
        (outputOnInitiate b jb msgA).jack.state = .OSelfPending)) := by
  have hBA : msgB.module_id ≠ a.module_id := by rw [hB]; exact fun h => hne h.symm
  have hAB : msgA.module_id ≠ b.module_id := by rw [hA]; exact hne
  have stA : (outputOnInitiate a ja msgB).jack.state =
      (if pyLt b.module_id a.module_id then OutputState.OOtherPending else .OSelfPending) := by
    unfold outputOnInitiate
    rw [if_neg (fun h => hBA h.1), if_pos hja, hB]
    by_cases h : pyLt b.module_id a.module_id
    · simp [h]
    · simp [h, hja]
  have stB : (outputOnInitiate b jb msgA).jack.state =
      (if pyLt a.module_id b.module_id then OutputState.OOtherPending else .OSelfPending) := by
    unfold outputOnInitiate
    rw [if_neg (fun h => hAB h.1), if_pos hjb, hA]
    by_cases h : pyLt a.module_id b.module_id
    · simp [h]
    · simp [h, hjb]
  have htot : pyLt a.module_id b.module_id = true ∨ pyLt b.module_id a.module_id = true := by
    rcases pyLt_total a.module_id b.module_id with h | h | h
    · exact absurd h hne
    · exact Or.inl h
    · exact Or.inr h
  rw [stA, stB]
  rcases htot with h | h
  · have h' := pyLt_asymm _ _ h
    simp [h, h']
  · have h' := pyLt_asymm _ _ h
    simp [h, h']

/-! ## C4 — `restore_state(get_state())` round trip -/

/-- C4, evaluation at the failing input: on a live module with one saved
connection, `restore_patch(get_state())` raises `TypeError` — the
connection-restoring step calls `self._start_receiver(io, group, offset,
block_size)` with four arguments while every concrete module defines
`_start_receiver(self, io, group)` with two — leaving the module
half-restored (the input jacks wiped to `IIdleDisconnected`, the live
receiver never restarted).  The `get_state` *value* happens to round-trip
on this module, but the claimed "restore completes without error on a
live module" is false for every state with a saved connection. -/
theorem c4_restore_round_trip_raises :
    (getState audioOutPM).connections ≠ [] ∧
    (restorePatch audioOutPM (getState audioOutPM)).raised = true ∧
    ((restorePatch audioOutPM (getState audioOutPM)).m.input_jacks.map (fun j => j.state)) =
      [.IIdleDisconnected, .IIdleDisconnected] ∧
    getState (restorePatch audioOutPM (getState audioOutPM)).m = getState audioOutPM := by
  decide

/-- C1, evaluation at the failing input: the commit is dead code.  A
`short_press` on an input in `IPending` reads
`getattr(self.module, "pending_msg", None)`; no statement in the
repository ever assigns `pending_msg`, so the accept branch is skipped:
the jack flips to `IIdleConnected` with *no* `ConnectionRecord`, *no*
group join, *no* `CONNECT` (nothing in the repository sends `CONNECT`;
`ConnectionProtocol.handle_msg` even ignores it as "only for debugging"),
and the pending initiator data is *not* cleared.  Even if `pending_msg`
were set, `_accept_connection` raises (`NameError`: undefined
`mcast_group` in its log line) before any `CONNECT` could be sent. -/
theorem c1_commit_is_dead_code :
    c1Jack.state = .IPending ∧
    (inputShortPress oscInCtx c1Jack []).jack.state = .IIdleConnected ∧
    (inputShortPress oscInCtx c1Jack []).sent = [] ∧
    (inputShortPress oscInCtx c1Jack []).joins = [] ∧
    connGet (inputShortPress oscInCtx c1Jack []).conns (pystr "fm") = none ∧
    (inputShortPress oscInCtx c1Jack []).jack.pending_initiator = .jstr (pystr "lfo_0") ∧
    (inputShortPress { oscInCtx with pending_msg := some lfoInitMsg } c1Jack []).raised = true ∧
    (inputShortPress { oscInCtx with pending_msg := some lfoInitMsg } c1Jack []).sent = [] := by
  decide

/-- C2, counterexample: a `short_press` on a disconnected input moves it
to `ISelfCompatible` and emits `SOLID` — the source's LED table was
deliberately changed from the spec's `BLINK_SLOW`
(`InputJack._set_led`: "Changed from BLINK_SLOW"). -/
theorem c2_led_counterexample :
    (inputShortPress oscInCtx { io_id := pystr "fm" } []).jack.state = .ISelfCompatible ∧
    (inputShortPress oscInCtx { io_id := pystr "fm" } []).leds =
      [(pystr "fm", LedState.SOLID)] ∧
    specInputLed .ISelfCompatible = .BLINK_SLOW ∧
    LedState.SOLID ≠ LedState.BLINK_SLOW := by
  decide

/-- C2, amended: after any transition handler the emitted LED is exactly
the code's LED table applied to the resulting state; the table agrees with
the claim on `IPending ↦ SOLID`, `IIdleConnected ↦ BLINK_RAPID`,
`OIdle ↦ SOLID` and `OCompatible ↦ SOLID`, but maps `ISelfCompatible` to
`SOLID`, not `BLINK_SLOW`. -/
theorem c2_led_pure_function_amended (m : ModuleCtx) (jo : OutputJack) (ji : InputJack)
    (conns : Conns) (msg : FsmMsg) :
    outLedsOk (outputShortPress m jo) = true ∧
    outLedsOk (outputLongPress m jo) = true ∧
    outLedsOk (outputOnInitiate m jo msg) = true ∧
    outLedsOk (outputOnCancel jo) = true ∧
    outLedsOk (outputOnCompatible m jo msg) = true ∧
    inLedsOk (inputShortPress m ji conns) = true ∧
    inLedsOk (inputLongPress m ji conns) = true ∧
    inLedsOk (inputOnInitiate m ji conns msg) = true ∧
    inLedsOk (inputOnCancel ji conns) = true ∧
    inputLed .IPending = .SOLID ∧
    inputLed .IIdleConnected = .BLINK_RAPID ∧
    outputLed .OIdle = .SOLID ∧
    outputLed .OCompatible = .SOLID ∧
    inputLed .ISelfCompatible = .SOLID := by
  refine ⟨?osp, ?olp, ?ooi, ?ooc, ?oocp, ?isp, ?ilp, ?ioi, ?ioc, rfl, rfl, ?t1, ?t2, rfl⟩
  case t1 => rfl
  case t2 => rfl
  · unfold outputShortPress
    split <;> simp [outLedsOk]
  · unfold outputLongPress
    split <;> simp [outLedsOk]
  · unfold outputOnInitiate
    split <;> [skip; split] <;> [simp [outLedsOk]; split <;> simp [outLedsOk]; simp [outLedsOk]]
  · simp [outputOnCancel, outLedsOk]
  · unfold outputOnCompatible
    split <;> simp [outLedsOk]
  · unfold inputShortPress
    split
    · simp [inLedsOk]
    · split
      · split
        · simp [inLedsOk]
        · simp [inLedsOk, acceptConnection]
      · split
        · split <;> simp [inLedsOk]
        · split <;> simp [inLedsOk]
  · unfold inputLongPress
    split <;> [simp [inLedsOk, inputLed]; split <;> simp [inLedsOk, inputLed]]
  · unfold inputOnInitiate
    split <;> simp [inLedsOk]
  · simp [inputOnCancel, inLedsOk]

/-! ## C5 — inbound `INITIATE` with mismatched type -/

/-- C5, counterexample: an input in `IOtherCompatible` with *no*
connection record receives a type-mismatched `INITIATE` and moves to
`IOtherPending` — the code branches on the FSM state, not on the presence
of a connection record as the claim says. -/
theorem c5_mismatch_counterexample :
    connGet [] (pystr "fm") = none ∧
    (inputOnInitiate oscInCtx { io_id := pystr "fm", state := .IOtherCompatible }
        [] audioInitMsg).jack.state = .IOtherPending ∧
    InputState.IOtherPending ≠ InputState.IOtherCompatible := by
  decide

/-- C5, amended: on a type-mismatched `INITIATE` not from itself, an input
moves to `IOtherCompatible` when its current state is one of
`{IIdleDisconnected, ISelfCompatible, IPending}`, and to `IOtherPending`
in every other state — the branch looks at the FSM state, not at the
connection record (the record is not consulted and not modified). -/
theorem c5_on_initiate_mismatch_amended (m : ModuleCtx) (j : InputJack) (conns : Conns)
    (msg : FsmMsg)
    (hself : ¬(msg.module_id = m.module_id ∧ msg.io_id = j.io_id))
    (hmm : pyGetD msg.payload (pystr "type") (.jstr (pystr "unknown")) ≠
      pyGetD (infoOf m.inputs j.io_id) (pystr "type") (.jstr (pystr "unknown"))) :
    (inputOnInitiate m j conns msg).jack.state =
      (if j.state = .IIdleDisconnected ∨ j.state = .ISelfCompatible ∨ j.state = .IPending
       then InputState.IOtherCompatible else InputState.IOtherPending) ∧
    (inputOnInitiate m j conns msg).conns = conns := by
  have hb : (pyGetD msg.payload (pystr "type") (.jstr (pystr "unknown")) ==
      pyGetD (infoOf m.inputs j.io_id) (pystr "type") (.jstr (pystr "unknown"))) = false :=
    beq_eq_false_iff_ne.mpr hmm
  unfold inputOnInitiate
  rw [if_neg hself]
  simp [hb]

theorem c5_on_initiate_mismatch_witness :
    (¬(audioInitMsg.module_id = oscInCtx.module_id ∧
        audioInitMsg.io_id = (pystr "fm" : PyStr)) ∧
      pyGetD audioInitMsg.payload (pystr "type") (.jstr (pystr "unknown")) ≠
        pyGetD (infoOf oscInCtx.inputs (pystr "fm")) (pystr "type") (.jstr (pystr "unknown"))) ∧
    (inputOnInitiate oscInCtx { io_id := pystr "fm", state := .IIdleConnected }
        [] audioInitMsg).jack.state = .IOtherPending :=
  ⟨⟨by decide, by decide⟩, by
    have h := c5_on_initiate_mismatch_amended oscInCtx
      { io_id := pystr "fm", state := .IIdleConnected } [] audioInitMsg
      (by decide) (by decide)
    simpa using h.1⟩

theorem inputOnCancel_jack (j : InputJack) (conns : Conns) :
    (inputOnCancel j conns).jack =
      { j with state := claimCancelInput j.state,
               pending_initiator := .jnull, pending_initiator_io := .jnull,
               pending_mcast := .jnull, pending_offset := .jnull } := by
  unfold inputOnCancel claimCancelInput
  cases hs : j.state <;> simp

/-- C6: after every jack of a module processes an inbound `CANCEL`, every
output is `OIdle`; every input is in a non-transient state, moved exactly
as the claim's table says, with its pending initiator data cleared and its
connection data (jack attributes and `input_connections` dictionary)
untouched. -/
theorem c6_cancel_clears_everything (ins : List InputJack) (outs : List OutputJack)
    (conns : Conns) :
    ((moduleHandleCancel ins outs conns).2.all (fun j => j.state == .OIdle) = true) ∧
    ((moduleHandleCancel ins outs conns).2.all (fun j => !transientOut j.state) = true) ∧
    ((moduleHandleCancel ins outs conns).1.all (fun j =>
        !transientIn j.state && j.pending_initiator == Jx.jnull &&
        j.pending_initiator_io == Jx.jnull && j.pending_mcast == Jx.jnull &&
        j.pending_offset == Jx.jnull) = true) ∧
    ((moduleHandleCancel ins outs conns).1.map (fun j => j.state) =
      ins.map (fun j => claimCancelInput j.state)) ∧
    ((moduleHandleCancel ins outs conns).1.map (fun j =>
        (j.io_id, j.connected_src, j.connected_src_io, j.connected_mcast,
         j.connected_offset, j.connected_block_size)) =
      ins.map (fun j =>
        (j.io_id, j.connected_src, j.connected_src_io, j.connected_mcast,
         j.connected_offset, j.connected_block_size))) ∧
    (∀ j : InputJack, (inputOnCancel j conns).conns = conns) := by
  refine ⟨?oa, ?ob, ?ia, ?ib, ?ic, fun j => rfl⟩
  · simp [moduleHandleCancel, List.all_eq_true, outputOnCancel]
  · simp [moduleHandleCancel, List.all_eq_true, outputOnCancel, transientOut]
  · simp only [moduleHandleCancel, List.all_eq_true, List.mem_map]
    rintro _ ⟨j, _, rfl⟩
    rw [inputOnCancel_jack]
    cases hs : j.state <;> simp [claimCancelInput, transientIn, hs]
  · simp only [moduleHandleCancel, List.map_map]
    induction ins with
    | nil => rfl
    | cons j t ih => simp [ih, inputOnCancel_jack]
  · simp only [moduleHandleCancel, List.map_map]
    induction ins with
    | nil => rfl
    | cons j t ih => simp [ih, inputOnCancel_jack]

theorem c3_initiate_race_witness :
    (oscCtx.module_id ≠ oscCtx1.module_id ∧
      pyLt oscCtx.module_id oscCtx1.module_id = true) ∧
    (outputOnInitiate oscCtx (OutputJack.mk (pystr "audio") .OSelfPending)
        (sendInitiateMsg oscCtx1 (pystr "audio"))).jack.state = .OSelfPending ∧
    (outputOnInitiate oscCtx1 (OutputJack.mk (pystr "audio") .OSelfPending)
        (sendInitiateMsg oscCtx (pystr "audio"))).jack.state = .OOtherPending := by
  refine ⟨⟨by decide, by decide⟩, ?_, ?_⟩
  · exact (c3_initiate_race oscCtx oscCtx1
      (OutputJack.mk (pystr "audio") .OSelfPending)
      (OutputJack.mk (pystr "audio") .OSelfPending)
      (sendInitiateMsg oscCtx (pystr "audio")) (sendInitiateMsg oscCtx1 (pystr "audio"))
      (by decide) rfl rfl rfl rfl).1.mpr (by decide)
  · exact (c3_initiate_race oscCtx oscCtx1
      (OutputJack.mk (pystr "audio") .OSelfPending)
      (OutputJack.mk (pystr "audio") .OSelfPending)
      (sendInitiateMsg oscCtx (pystr "audio")) (sendInitiateMsg oscCtx1 (pystr "audio"))
      (by decide) rfl rfl rfl rfl).2.2.2.1.mpr (by decide)

/-! ## Supporting lemmas for the codec claims -/

theorem utf8EncodeChar_ascii (c : Nat) (h : c < 0x80) : utf8EncodeChar c = [c] := by
  simp [utf8EncodeChar, h]

theorem utf8Encode_ascii (s : PyStr) (h : ∀ c ∈ s, c < 0x80) : utf8Encode s = s := by
  induction s with
  | nil => rfl
  | cons c t ih =>
    have hc : c < 0x80 := h c (List.mem_cons_self c t)
    have ht := ih (fun x hx => h x (List.mem_cons_of_mem c hx))
    simp only [utf8Encode, List.map_cons, List.flatten_cons] at ht ⊢
    rw [utf8EncodeChar_ascii c hc, ht, List.singleton_append]

theorem utf8Step_ascii (b : Nat) (rest : List Nat) (h : b < 0x80) :
    utf8Step b rest = (some b, 0) := by
  simp [utf8Step, h]

theorem utf8DecodeReplaceF_ascii (l : List Nat) : ∀ fuel, l.length < fuel →
    (∀ b ∈ l, b < 0x80) → utf8DecodeReplaceF fuel l = l := by
  induction l with
  | nil =>
    intro fuel hf _
    cases fuel with
    | zero => omega
    | succ g => rfl
  | cons b t ih =>
    intro fuel hf h
    cases fuel with
    | zero => omega
    | succ g =>
      have hlen : t.length < g := by
        simp only [List.length_cons] at hf
        omega
      have ht := ih g hlen (fun x hx => h x (List.mem_cons_of_mem b hx))
      simp [utf8DecodeReplaceF, utf8Step_ascii b t (h b (List.mem_cons_self b t)), ht]

theorem utf8DecodeReplace_ascii (l : List Nat) (h : ∀ b ∈ l, b < 0x80) :
    utf8DecodeReplace l = l :=
  utf8DecodeReplaceF_ascii l (l.length + 1) (by omega) h

theorem utf8SPStep_ascii (b : Nat) (rest : List Nat) (h : b < 0x80) :
    utf8SPStep b rest = some (b, 0) := by
  have hne : b ≠ 0xED := by omega
  simp [utf8SPStep, hne, utf8Step_ascii b rest h]

theorem utf8DecodeSPF_ascii (l : List Nat) : ∀ fuel, l.length < fuel →
    (∀ b ∈ l, b < 0x80) → utf8DecodeSPF fuel l = some l := by
  induction l with
  | nil =>
    intro fuel hf _
    cases fuel with
    | zero => omega
    | succ g => rfl
  | cons b t ih =>
    intro fuel hf h
    cases fuel with
    | zero => omega
    | succ g =>
      have hlen : t.length < g := by
        simp only [List.length_cons] at hf
        omega
      have ht := ih g hlen (fun x hx => h x (List.mem_cons_of_mem b hx))
      simp [utf8DecodeSPF, utf8SPStep_ascii b t (h b (List.mem_cons_self b t)), ht]

theorem utf8DecodeSP_ascii (l : List Nat) (h : ∀ b ∈ l, b < 0x80) :
    utf8DecodeSP l = some l :=
  utf8DecodeSPF_ascii l (l.length + 1) (by omega) h

theorem skipWs_not_ws (c : Nat) (t : List Nat) (h : isWsChar c = false) :
    skipWs (c :: t) = c :: t := by
  simp [skipWs, h]

theorem valHead_not_ws (c : Nat) (h : valHead c = true) :
    isWsChar c = false ∧ c ≠ 125 ∧ c ≠ 93 ∧ c ≠ 44 ∧ c ≠ 58 := by
  have hc : ((((((c = 34 ∨ c = 123) ∨ c = 91) ∨ c = 110) ∨ c = 116) ∨ c = 102) ∨ c = 45) ∨
      (48 ≤ c ∧ c ≤ 57) := by
    simpa [valHead, isDigitChar] using h
  have h1 : c ≠ 32 ∧ c ≠ 9 ∧ c ≠ 10 ∧ c ≠ 13 ∧ c ≠ 125 ∧ c ≠ 93 ∧ c ≠ 44 ∧ c ≠ 58 := by
    rcases hc with ((((((h | h) | h) | h) | h) | h) | h) | h <;> omega
  refine ⟨?_, h1.2.2.2.2.1, h1.2.2.2.2.2.1, h1.2.2.2.2.2.2.1, h1.2.2.2.2.2.2.2⟩
  simp [isWsChar, h1.1, h1.2.1, h1.2.2.1, h1.2.2.2.1]

theorem natDigitsF_irrel (n : Nat) : ∀ f1 f2, n < f1 → n < f2 →
    natDigitsF f1 n = natDigitsF f2 n := by
  induction n using Nat.strong_induction_on with
  | _ n ih =>
    intro f1 f2 h1 h2
    cases f1 with
    | zero => omega
    | succ g1 =>
      cases f2 with
      | zero => omega
      | succ g2 =>
        simp only [natDigitsF]
        by_cases h : n < 10
        · simp [h]
        · simp only [if_neg h]
          have hd : n / 10 < n := Nat.div_lt_self (by omega) (by omega)
          rw [ih (n / 10) hd g1 g2 (by omega) (by omega)]

theorem natDigits_unfold (n : Nat) :
    natDigits n = if n < 10 then [48 + n] else natDigits (n / 10) ++ [48 + n % 10] := by
  show natDigitsF (n + 1) n = _
  rw [natDigitsF]
  by_cases h : n < 10
  · simp [h]
  · simp only [if_neg h]
    have hd : n / 10 < n := Nat.div_lt_self (by omega) (by omega)
    rw [natDigitsF_irrel (n / 10) n (n / 10 + 1) (by omega) (by omega)]
    rfl

theorem natDigits_digits (n : Nat) : ∀ d ∈ natDigits n, 48 ≤ d ∧ d ≤ 57 := by
  induction n using Nat.strong_induction_on with
  | _ n ih =>
    rw [natDigits_unfold]
    by_cases h : n < 10
    · simp only [if_pos h, List.mem_singleton]
      rintro d rfl
      omega
    · simp only [if_neg h]
      intro d hd
      rcases List.mem_append.mp hd with h1 | h1
      · exact ih (n / 10) (Nat.div_lt_self (by omega) (by omega)) d h1
      · simp only [List.mem_singleton] at h1
        omega

theorem natDigits_head (n : Nat) :
    ∃ c t, natDigits n = c :: t ∧ 48 ≤ c ∧ c ≤ 57 ∧ (1 ≤ n → c ≠ 48) ∧
      ∀ d ∈ t, 48 ≤ d ∧ d ≤ 57 := by
  induction n using Nat.strong_induction_on with
  | _ n ih =>
    rw [natDigits_unfold]
    by_cases h : n < 10
    · exact ⟨48 + n, [], by simp [h], by omega, by omega, fun h1 => by omega, by simp⟩
    · obtain ⟨c, t, heq, h1, h2, h3, h4⟩ := ih (n / 10) (Nat.div_lt_self (by omega) (by omega))
      refine ⟨c, t ++ [48 + n % 10], ?_, h1, h2, fun _ => h3 (by omega), ?_⟩
      · simp [h, heq]
      · intro d hd
        rcases List.mem_append.mp hd with h5 | h5
        · exact h4 d h5
        · simp only [List.mem_singleton] at h5
          omega

theorem digitsVal_natDigits (n : Nat) : ∀ acc rest,
    digitsVal acc (natDigits n ++ rest) =
      digitsVal (acc * 10 ^ (natDigits n).length + n) rest := by
  induction n using Nat.strong_induction_on with
  | _ n ih =>
    intro acc rest
    rw [natDigits_unfold]
    by_cases h : n < 10
    · simp only [if_pos h, List.singleton_append, List.length_singleton, pow_one]
      have hd : isDigitChar (48 + n) = true := by simp [isDigitChar]; omega
      simp [digitsVal, hd]
    · have hlt : n / 10 < n := Nat.div_lt_self (by omega) (by omega)
      simp only [if_neg h, List.append_assoc, List.singleton_append]
      rw [ih (n / 10) hlt acc ((48 + n % 10) :: rest)]
      have hd : isDigitChar (48 + n % 10) = true := by simp [isDigitChar]; omega
      simp only [digitsVal, hd, if_pos]
      have harith : (acc * 10 ^ (natDigits (n / 10)).length + n / 10) * 10 + (48 + n % 10 - 48) =
          acc * 10 ^ ((natDigits (n / 10)).length + 1) + n := by
        have : 48 + n % 10 - 48 = n % 10 := by omega
        rw [this, pow_succ]
        have := Nat.div_add_mod n 10
        ring_nf
        omega
      rw [harith]
      congr 1
      simp [List.length_append]

theorem numEnd_cons_props (c : Nat) (t : List Nat) (h : numEnd (c :: t) = true) :
    isDigitChar c = false ∧ c ≠ 46 ∧ c ≠ 101 ∧ c ≠ 69 := by
  have h' : ((isDigitChar c = false ∧ ¬c = 46) ∧ ¬c = 101) ∧ ¬c = 69 := by
    simpa [numEnd] using h
  exact ⟨h'.1.1.1, h'.1.1.2, h'.1.2, h'.2⟩

theorem digitsVal_stop (v : Nat) (rest : List Nat) (h : numEnd rest = true) :
    digitsVal v rest = (v, rest) := by
  cases rest with
  | nil => rfl
  | cons c t =>
    simp [digitsVal, (numEnd_cons_props c t h).1]

theorem parseNumberTail_natDigits (neg : Bool) (n : Nat) (rest : List Nat)
    (hr : numEnd rest = true) :
    parseNumberTail neg (natDigits n ++ rest) =
      some (.jint (if neg then -(n : Int) else (n : Int)), rest) := by
  have hfin : ∀ v : Nat, finishNum neg v rest =
      some (.jint (if neg then -(v : Int) else (v : Int)), rest) := by
    intro v
    cases rest with
    | nil => simp [finishNum]
    | cons c t =>
      obtain ⟨_, h46, h101, h69⟩ := numEnd_cons_props c t hr
      simp [finishNum, h46, h101, h69]
  by_cases hn : n = 0
  · subst hn
    have h0 : natDigits 0 = [48] := by decide
    rw [h0, List.singleton_append]
    simp only [parseNumberTail, if_pos rfl]
    exact hfin 0
  · obtain ⟨c, t, heq, h1, h2, h3, h4⟩ := natDigits_head n
    have hc48 : c ≠ 48 := h3 (by omega)
    have hdig : isDigitChar c = true := by simp [isDigitChar]; omega
    rw [heq, List.cons_append]
    simp only [parseNumberTail, if_neg hc48, hdig, if_pos]
    have hdv : digitsVal (c - 48) (t ++ rest) = (n, rest) := by
      have h5 := digitsVal_natDigits n 0 rest
      rw [heq, List.cons_append] at h5
      simp only [digitsVal, hdig, if_pos] at h5
      rw [Nat.zero_mul, Nat.zero_mul, Nat.zero_add, Nat.zero_add] at h5
      rw [h5]
      exact digitsVal_stop n rest hr
    rw [hdv]
    exact hfin n

theorem hexVal_of_hexDigit (m : Nat) (hm : m < 16) : hexVal (hexDigit m) = some m := by
  by_cases h10 : m < 10
  · have he : hexDigit m = 48 + m := by simp [hexDigit, h10]
    rw [he]
    simp only [hexVal, if_pos (show 48 ≤ 48 + m ∧ 48 + m ≤ 57 by omega)]
    congr 1
    omega
  · have he : hexDigit m = 87 + m := by simp [hexDigit, h10]
    rw [he]
    rw [hexVal, if_neg (show ¬(48 ≤ 87 + m ∧ 87 + m ≤ 57) by omega),
      if_pos (show 97 ≤ 87 + m ∧ 87 + m ≤ 102 by omega)]
    congr 1
    omega

theorem u4Val_hex4 (n : Nat) (h : n < 0x10000) (rest : List Nat) :
    u4Val (hex4 n ++ rest) = some n := by
  have e1 := hexVal_of_hexDigit (n / 4096 % 16) (by omega)
  have e2 := hexVal_of_hexDigit (n / 256 % 16) (by omega)
  have e3 := hexVal_of_hexDigit (n / 16 % 16) (by omega)
  have e4 := hexVal_of_hexDigit (n % 16) (by omega)
  simp only [hex4, List.cons_append, List.nil_append, u4Val, e1, e2, e3, e4]
  congr 1
  omega

theorem hex4_append_drop4 (n : Nat) (rest : List Nat) : (hex4 n ++ rest).drop 4 = rest := by
  simp [hex4]

theorem hexDigit_bounds (m : Nat) (h : m < 16) : 0x20 ≤ hexDigit m ∧ hexDigit m ≤ 0x7E := by
  unfold hexDigit
  by_cases h10 : m < 10
  · rw [if_pos h10]; omega
  · rw [if_neg h10]; omega

theorem hex4_bounds (n : Nat) : ∀ x ∈ hex4 n, 0x20 ≤ x ∧ x ≤ 0x7E := by
  intro x hx
  simp only [hex4, List.mem_cons, List.mem_singleton, List.not_mem_nil, or_false] at hx
  rcases hx with h | h | h | h <;> subst h <;> exact hexDigit_bounds _ (by omega)

theorem escChar_bounds (c : Nat) : ∀ x ∈ escChar c, 0x20 ≤ x ∧ x ≤ 0x7E := by
  intro x hx
  unfold escChar at hx
  by_cases h1 : c = 0x5C
  · rw [if_pos h1] at hx; simp at hx; omega
  rw [if_neg h1] at hx
  by_cases h2 : c = 0x22
  · rw [if_pos h2] at hx; simp at hx; omega
  rw [if_neg h2] at hx
  by_cases h3 : c = 8
  · rw [if_pos h3] at hx; simp at hx; omega
  rw [if_neg h3] at hx
  by_cases h4 : c = 9
  · rw [if_pos h4] at hx; simp at hx; omega
  rw [if_neg h4] at hx
  by_cases h5 : c = 10
  · rw [if_pos h5] at hx; simp at hx; omega
  rw [if_neg h5] at hx
  by_cases h6 : c = 12
  · rw [if_pos h6] at hx; simp at hx; omega
  rw [if_neg h6] at hx
  by_cases h7 : c = 13
  · rw [if_pos h7] at hx; simp at hx; omega
  rw [if_neg h7] at hx
  by_cases h8 : c < 0x20 ∨ 0x7E < c
  · rw [if_pos h8] at hx
    by_cases h9 : c < 0x10000
    · rw [if_pos h9] at hx
      simp only [List.mem_cons] at hx
      rcases hx with h | h | h
      · omega
      · omega
      · exact hex4_bounds c x h
    · rw [if_neg h9] at hx
      simp only [List.append_assoc, List.cons_append, List.mem_cons, List.mem_append] at hx
      rcases hx with h | h | h
      · omega
      · omega
      · rcases h with h | h | h | h
        · exact hex4_bounds _ x h
        · omega
        · omega
        · exact hex4_bounds _ x h
  · rw [if_neg h8] at hx
    simp only [List.mem_singleton] at hx
    omega

theorem escString_bounds (s : PyStr) : ∀ x ∈ escString s, 0x20 ≤ x ∧ x ≤ 0x7E := by
  intro x hx
  rw [escString] at hx
  rcases List.mem_cons.mp hx with h | h
  · omega
  rcases List.mem_append.mp h with h | h
  · obtain ⟨l, hl, hxl⟩ := List.mem_flatten.mp h
    obtain ⟨ch, _, rfl⟩ := List.mem_map.mp hl
    exact escChar_bounds ch x hxl
  · simp only [List.mem_singleton] at h
    omega

theorem parseStr_quote (fuel : Nat) (rest : List Nat) :
    parseStr (fuel + 1) (0x22 :: rest) = some ([], rest) := by
  simp [parseStr]

theorem parseStr_plain (fuel c : Nat) (rest : List Nat) (h20 : ¬c < 0x20) (h1 : c ≠ 0x22)
    (h2 : c ≠ 0x5C) :
    parseStr (fuel + 1) (c :: rest) = (parseStr fuel rest).map (fun p => (c :: p.1, p.2)) := by
  simp [parseStr, h1, h2, h20]

theorem parseStr_esc_simple (fuel e d : Nat) (rest1 : List Nat)
    (h : (e = 0x22 ∧ d = e) ∨ (e = 0x5C ∧ d = e) ∨ (e = 0x2F ∧ d = e) ∨
      (e = 98 ∧ d = 8) ∨ (e = 116 ∧ d = 9) ∨ (e = 110 ∧ d = 10) ∨
      (e = 102 ∧ d = 12) ∨ (e = 114 ∧ d = 13)) :
    parseStr (fuel + 1) (0x5C :: e :: rest1) =
      (parseStr fuel rest1).map (fun p => (d :: p.1, p.2)) := by
  rcases h with h | h | h | h | h | h | h | h <;>
    obtain ⟨rfl, rfl⟩ := h <;> simp [parseStr]

theorem parseStr_u_plain (fuel : Nat) (rest1 : List Nat) (u : Nat) (hu : u4Val rest1 = some u)
    (hns : ¬(0xD800 ≤ u ∧ u ≤ 0xDBFF)) :
    parseStr (fuel + 1) (0x5C :: 117 :: rest1) =
      (parseStr fuel (rest1.drop 4)).map (fun p => (u :: p.1, p.2)) := by
  rw [parseStr]
  simp [hu, hns]

theorem parseStr_u_pair (fuel : Nat) (rest1 r3 : List Nat) (u u2 : Nat)
    (hu : u4Val rest1 = some u) (hhigh : 0xD800 ≤ u ∧ u ≤ 0xDBFF)
    (hd : rest1.drop 4 = 0x5C :: 117 :: r3) (hu2 : u4Val r3 = some u2)
    (hlow : 0xDC00 ≤ u2 ∧ u2 ≤ 0xDFFF) :
    parseStr (fuel + 1) (0x5C :: 117 :: rest1) =
      (parseStr fuel (rest1.drop 10)).map
        (fun p => ((0x10000 + (u - 0xD800) * 1024 + (u2 - 0xDC00)) :: p.1, p.2)) := by
  rw [parseStr]
  simp [hu, hhigh, hd, hu2, hlow]

theorem escChar_length_pos (c : Nat) : 1 ≤ (escChar c).length := by
  unfold escChar
  repeat' split
  all_goals simp [hex4]

theorem parseStr_esc (s : PyStr) (h : scalarStr s = true) : ∀ (fuel : Nat) (rest : List Nat),
    ((s.map escChar).flatten).length < fuel →
    parseStr fuel ((s.map escChar).flatten ++ 0x22 :: rest) = some (s, rest) := by
  induction s with
  | nil =>
    intro fuel rest hf
    simp only [List.map_nil, List.flatten_nil, List.length_nil] at hf
    cases fuel with
    | zero => omega
    | succ g =>
      simpa using parseStr_quote g rest
  | cons c cs ih =>
    intro fuel rest hf
    have hc : c < 0x110000 ∧ (c < 0xD800 ∨ 0xDFFF < c) := by
      have := (List.all_eq_true.mp h) c (List.mem_cons_self c cs)
      simp only [Bool.and_eq_true, decide_eq_true_eq, Bool.not_eq_true', Bool.and_eq_false_iff,
        decide_eq_false_iff_not, Nat.not_le, Nat.not_lt] at this
      refine ⟨this.1, ?_⟩
      rcases this.2 with h' | h'
      · exact Or.inl h'
      · exact Or.inr (by omega)
    have hcs : scalarStr cs = true :=
      List.all_eq_true.mpr (fun x hx => (List.all_eq_true.mp h) x (List.mem_cons_of_mem c hx))
    have hflat : ((c :: cs).map escChar).flatten.length =
        (escChar c).length + ((cs.map escChar).flatten).length := by
      simp
    have hepos := escChar_length_pos c
    cases fuel with
    | zero => omega
    | succ g =>
      have hf' : ((cs.map escChar).flatten).length < g := by omega
      have IH := ih hcs g rest hf'
      simp only [List.map_cons, List.flatten_cons, List.append_assoc]
      set rest' := (cs.map escChar).flatten ++ 0x22 :: rest with hrest'
      by_cases h1 : c = 0x5C
      · subst h1
        have he : escChar 0x5C = [0x5C, 0x5C] := by decide
        rw [he]
        simp only [List.cons_append, List.nil_append]
        rw [parseStr_esc_simple g 0x5C 0x5C rest' (Or.inr (Or.inl ⟨rfl, rfl⟩)), IH]
        rfl
      by_cases h2 : c = 0x22
      · subst h2
        have he : escChar 0x22 = [0x5C, 0x22] := by decide
        rw [he]
        simp only [List.cons_append, List.nil_append]
        rw [parseStr_esc_simple g 0x22 0x22 rest' (Or.inl ⟨rfl, rfl⟩), IH]
        rfl
      by_cases h3 : c = 8
      · subst h3
        have he : escChar 8 = [0x5C, 98] := by decide
        rw [he]
        simp only [List.cons_append, List.nil_append]
        rw [parseStr_esc_simple g 98 8 rest'
          (Or.inr (Or.inr (Or.inr (Or.inl ⟨rfl, rfl⟩)))), IH]
        rfl
      by_cases h4 : c = 9
      · subst h4
        have he : escChar 9 = [0x5C, 116] := by decide
        rw [he]
        simp only [List.cons_append, List.nil_append]
        rw [parseStr_esc_simple g 116 9 rest'
          (Or.inr (Or.inr (Or.inr (Or.inr (Or.inl ⟨rfl, rfl⟩))))), IH]
        rfl
      by_cases h5 : c = 10
      · subst h5
        have he : escChar 10 = [0x5C, 110] := by decide
        rw [he]
        simp only [List.cons_append, List.nil_append]
        rw [parseStr_esc_simple g 110 10 rest'
          (Or.inr (Or.inr (Or.inr (Or.inr (Or.inr (Or.inl ⟨rfl, rfl⟩)))))), IH]
        rfl
      by_cases h6 : c = 12
      · subst h6
        have he : escChar 12 = [0x5C, 102] := by decide
        rw [he]
        simp only [List.cons_append, List.nil_append]
        rw [parseStr_esc_simple g 102 12 rest'
          (Or.inr (Or.inr (Or.inr (Or.inr (Or.inr (Or.inr (Or.inl ⟨rfl, rfl⟩))))))), IH]
        rfl
      by_cases h7 : c = 13
      · subst h7
        have he : escChar 13 = [0x5C, 114] := by decide
        rw [he]
        simp only [List.cons_append, List.nil_append]
        rw [parseStr_esc_simple g 114 13 rest'
          (Or.inr (Or.inr (Or.inr (Or.inr (Or.inr (Or.inr (Or.inr ⟨rfl, rfl⟩))))))), IH]
        rfl
      by_cases h8 : c < 0x20 ∨ 0x7E < c
      · by_cases h9 : c < 0x10000
        · have hesc : escChar c = 0x5C :: 117 :: hex4 c := by
            rw [escChar, if_neg h1, if_neg h2, if_neg h3, if_neg h4, if_neg h5, if_neg h6,
              if_neg h7, if_pos h8, if_pos h9]
          rw [hesc]
          simp only [List.cons_append]
          have hns : ¬(0xD800 ≤ c ∧ c ≤ 0xDBFF) := by
            rcases hc.2 with h' | h' <;> omega
          rw [parseStr_u_plain g (hex4 c ++ rest') c (u4Val_hex4 c h9 rest') hns,
            hex4_append_drop4, IH]
          rfl
        · have hesc : escChar c =
              (0x5C :: 117 :: hex4 (0xD800 + (c - 0x10000) / 1024)) ++
              (0x5C :: 117 :: hex4 (0xDC00 + (c - 0x10000) % 1024)) := by
            rw [escChar, if_neg h1, if_neg h2, if_neg h3, if_neg h4, if_neg h5, if_neg h6,
              if_neg h7, if_pos h8, if_neg h9]
          have hq : (c - 0x10000) / 1024 ≤ 0x3FF := by omega
          have hrm : (c - 0x10000) % 1024 ≤ 0x3FF := by
            have := Nat.mod_lt (c - 0x10000) (show 0 < 1024 by omega)
            omega
          rw [hesc]
          simp only [List.cons_append, List.append_assoc]
          rw [parseStr_u_pair g (hex4 (0xD800 + (c - 0x10000) / 1024) ++
                (0x5C :: 117 :: (hex4 (0xDC00 + (c - 0x10000) % 1024) ++ rest')))
              (hex4 (0xDC00 + (c - 0x10000) % 1024) ++ rest')
              (0xD800 + (c - 0x10000) / 1024) (0xDC00 + (c - 0x10000) % 1024)
              (u4Val_hex4 _ (by omega) _)
              (by omega)
              (hex4_append_drop4 _ _)
              (u4Val_hex4 _ (by omega) _)
              (by omega)]
          have hdrop10 :
              (hex4 (0xD800 + (c - 0x10000) / 1024) ++
                (0x5C :: 117 :: (hex4 (0xDC00 + (c - 0x10000) % 1024) ++ rest'))).drop 10 =
              rest' := by
            simp [hex4]
          have hcomb : 0x10000 + (0xD800 + (c - 0x10000) / 1024 - 0xD800) * 1024 +
              (0xDC00 + (c - 0x10000) % 1024 - 0xDC00) = c := by
            have := Nat.div_add_mod (c - 0x10000) 1024
            omega
          rw [hcomb, hdrop10, IH]
          rfl
      · have hesc : escChar c = [c] := by
          rw [escChar, if_neg h1, if_neg h2, if_neg h3, if_neg h4, if_neg h5, if_neg h6,
            if_neg h7, if_neg h8]
        rw [hesc]
        simp only [List.cons_append, List.nil_append]
        rw [parseStr_plain g c rest' (by omega) h2 h1, IH]
        rfl

theorem dumps_head_valHead (v : Jx) : ∃ c t, Jx.dumps v = c :: t ∧ valHead c = true := by
  cases v with
  | jnull => exact ⟨110, _, rfl, by decide⟩
  | jbool b => cases b with
    | true => exact ⟨116, _, rfl, by decide⟩
    | false => exact ⟨102, _, rfl, by decide⟩
  | jint n =>
    cases n with
    | ofNat m =>
      obtain ⟨c, t, heq, h1, h2, _, _⟩ := natDigits_head m
      refine ⟨c, t, ?_, ?_⟩
      · show intChars (Int.ofNat m) = c :: t
        rw [intChars, heq]
      · simp [valHead, isDigitChar]
        omega
    | negSucc m => exact ⟨45, _, rfl, by decide⟩
  | jstr s => exact ⟨0x22, _, rfl, by decide⟩
  | jarr l => exact ⟨91, _, rfl, by decide⟩
  | jobj o => exact ⟨123, _, rfl, by decide⟩

theorem skipWs_append_dumps (v : Jx) (r : List Nat) :
    skipWs (Jx.dumps v ++ r) = Jx.dumps v ++ r := by
  obtain ⟨c, t, heq, hv⟩ := dumps_head_valHead v
  rw [heq, List.cons_append, skipWs_not_ws _ _ (valHead_not_ws c hv).1]

theorem dumps_length_pos (v : Jx) : 1 ≤ (Jx.dumps v).length := by
  obtain ⟨c, t, heq, _⟩ := dumps_head_valHead v
  rw [heq]
  simp

theorem dumps_head_ne (v : Jx) (r : List Nat) :
    (∀ r2, Jx.dumps v ++ r ≠ 125 :: r2) ∧ (∀ r2, Jx.dumps v ++ r ≠ 93 :: r2) := by
  obtain ⟨c, t, heq, hv⟩ := dumps_head_valHead v
  obtain ⟨-, h125, h93, -, -⟩ := valHead_not_ws c hv
  rw [heq]
  constructor <;> intro r2 hcontra <;> injection hcontra with h1 _
  · exact h125 h1
  · exact h93 h1

theorem jxlist_dumps_cons (x : Jx) (t : JxList) :
    ∃ z, ∀ r, JxList.dumps (.cons x t) ++ r = Jx.dumps x ++ (z ++ r) ∧
      (t = .nil → z = []) := by
  cases t with
  | nil => exact ⟨[], fun r => ⟨by simp [JxList.dumps], fun _ => rfl⟩⟩
  | cons y t' =>
    exact ⟨44 :: JxList.dumps (.cons y t'), fun r =>
      ⟨by simp [JxList.dumps], fun hc => by cases hc⟩⟩

theorem escString_length (s : PyStr) :
    (escString s).length = ((s.map escChar).flatten).length + 2 := by
  simp [escString]

theorem skipWs_jxobj_dumps (k : PyStr) (v : Jx) (t : JxObj) (r : List Nat) :
    skipWs (JxObj.dumps (.ocons k v t) ++ r) = JxObj.dumps (.ocons k v t) ++ r := by
  have h : ∃ tl, JxObj.dumps (.ocons k v t) = 0x22 :: tl := by
    cases t with
    | onil =>
      refine ⟨(k.map escChar).flatten ++ 0x22 :: 58 :: Jx.dumps v, ?_⟩
      simp [JxObj.dumps, escString]
    | ocons k2 v2 t2 =>
      refine ⟨(k.map escChar).flatten ++
        0x22 :: 58 :: (Jx.dumps v ++ 44 :: JxObj.dumps (.ocons k2 v2 t2)), ?_⟩
      simp [JxObj.dumps, escString]
  obtain ⟨tl, htl⟩ := h
  rw [htl, List.cons_append, skipWs_not_ws _ _ (by decide)]

theorem numEnd_comma (t : List Nat) : numEnd (44 :: t) = true := by
  simp [numEnd, isDigitChar]

theorem numEnd_rbracket (t : List Nat) : numEnd (93 :: t) = true := by
  simp [numEnd, isDigitChar]

theorem numEnd_rbrace (t : List Nat) : numEnd (125 :: t) = true := by
  simp [numEnd, isDigitChar]

mutual
theorem parseVal_dumps : ∀ (v : Jx), Jx.scalarOK v = true → ∀ (fuel : Nat) (rest : List Nat),
    (Jx.dumps v).length ≤ fuel → numEnd rest = true →
    parseVal fuel (Jx.dumps v ++ rest) = some (v, rest)
  | .jnull, _, fuel, rest, hf, _ => by
    have hlen : (Jx.dumps .jnull).length = 4 := by decide
    cases fuel with
    | zero => omega
    | succ g =>
      have hd : Jx.dumps .jnull = [110, 117, 108, 108] := by decide
      rw [hd]
      simp [parseVal]
  | .jbool true, _, fuel, rest, hf, _ => by
    have hlen : (Jx.dumps (.jbool true)).length = 4 := by decide
    cases fuel with
    | zero => omega
    | succ g =>
      have hd : Jx.dumps (.jbool true) = [116, 114, 117, 101] := by decide
      rw [hd]
      simp [parseVal]
  | .jbool false, _, fuel, rest, hf, _ => by
    have hlen : (Jx.dumps (.jbool false)).length = 5 := by decide
    cases fuel with
    | zero => omega
    | succ g =>
      have hd : Jx.dumps (.jbool false) = [102, 97, 108, 115, 101] := by decide
      rw [hd]
      simp [parseVal]
  | .jint (Int.ofNat m), _, fuel, rest, hf, hr => by
    have hd : Jx.dumps (.jint (Int.ofNat m)) = natDigits m := rfl
    obtain ⟨c, t, heq, h1, h2, h3, h4⟩ := natDigits_head m
    rw [hd] at hf ⊢
    cases fuel with
    | zero =>
      rw [heq] at hf
      simp at hf
    | succ g =>
      rw [heq, List.cons_append]
      have hdig : isDigitChar c = true := by simp [isDigitChar]; omega
      have hn34 : ¬c = 34 := by omega
      have hn123 : ¬c = 123 := by omega
      have hn91 : ¬c = 91 := by omega
      have hn110 : ¬c = 110 := by omega
      have hn116 : ¬c = 116 := by omega
      have hn102 : ¬c = 102 := by omega
      have hn45 : ¬c = 45 := by omega
      simp only [parseVal, if_neg hn34, if_neg hn123, if_neg hn91, if_neg hn110,
        if_neg hn116, if_neg hn102, if_neg hn45, hdig, if_pos]
      rw [← List.cons_append, ← heq, parseNumberTail_natDigits false m rest hr]
      rfl
  | .jint (Int.negSucc m), _, fuel, rest, hf, hr => by
    have hd : Jx.dumps (.jint (Int.negSucc m)) = 45 :: natDigits (m + 1) := rfl
    rw [hd] at hf ⊢
    cases fuel with
    | zero => simp at hf
    | succ g =>
      rw [List.cons_append]
      simp only [parseVal, if_neg (by omega : ¬(45 : Nat) = 34),
        if_neg (by omega : ¬(45 : Nat) = 123), if_neg (by omega : ¬(45 : Nat) = 91),
        if_neg (by omega : ¬(45 : Nat) = 110), if_neg (by omega : ¬(45 : Nat) = 116),
        if_neg (by omega : ¬(45 : Nat) = 102), if_pos rfl]
      rw [parseNumberTail_natDigits true (m + 1) rest hr]
      simp [Int.negSucc_eq]
  | .jstr s, hs, fuel, rest, hf, _ => by
    have hd : Jx.dumps (.jstr s) = escString s := rfl
    rw [hd] at hf ⊢
    rw [escString_length] at hf
    cases fuel with
    | zero => omega
    | succ g =>
      rw [escString]
      have hss : scalarStr s = true := hs
      have hkey := parseStr_esc s hss g rest (by omega)
      simp [parseVal, hkey]
  | .jarr .nil, _, fuel, rest, hf, _ => by
    have hlen : (Jx.dumps (.jarr .nil)).length = 2 := by decide
    cases fuel with
    | zero => omega
    | succ g =>
      have hd : Jx.dumps (.jarr .nil) = [91, 93] := by decide
      rw [hd]
      simp [parseVal, skipWs, isWsChar]
  | .jarr (.cons x t), hs, fuel, rest, hf, _ => by
    have hd : Jx.dumps (.jarr (.cons x t)) = 91 :: JxList.dumps (.cons x t) ++ [93] := rfl
    rw [hd] at hf ⊢
    cases fuel with
    | zero => simp at hf
    | succ g =>
      have hassoc : (91 :: JxList.dumps (.cons x t) ++ [93]) ++ rest =
          91 :: (JxList.dumps (.cons x t) ++ 93 :: rest) := by
        simp
      rw [hassoc]
      simp only [parseVal, if_neg (by omega : ¬(91 : Nat) = 34),
        if_neg (by omega : ¬(91 : Nat) = 123), if_pos rfl]
      obtain ⟨z, hz⟩ := jxlist_dumps_cons x t
      have hz1 := (hz (93 :: rest)).1
      rw [hz1, skipWs_append_dumps x (z ++ 93 :: rest), ← hz1]
      have hne := dumps_head_ne x (z ++ 93 :: rest)
      have hmatch : (match JxList.dumps (.cons x t) ++ 93 :: rest with
          | 93 :: r2 => some (Jx.jarr .nil, r2)
          | r => parseArrItems g r) = parseArrItems g (JxList.dumps (.cons x t) ++ 93 :: rest) := by
        rw [hz1]
        obtain ⟨c, tl, heq, hv⟩ := dumps_head_valHead x
        rw [heq, List.cons_append]
        have h93 := (valHead_not_ws c hv).2.2.1
        simp only at *
        split
        · rename_i heq2
          injection heq2 with hh _
          exact absurd hh h93
        · rfl
      rw [hmatch]
      have hflen : (JxList.dumps (.cons x t)).length < g := by
        simp only [List.length_cons, List.length_append] at hf
        simp at hf
        omega
      rw [parseArrItems_dumps (.cons x t) (by intro hc; cases hc) hs g rest hflen]
      simp
  | .jobj .onil, _, fuel, rest, hf, _ => by
    have hlen : (Jx.dumps (.jobj .onil)).length = 2 := by decide
    cases fuel with
    | zero => omega
    | succ g =>
      have hd : Jx.dumps (.jobj .onil) = [123, 125] := by decide
      rw [hd]
      simp [parseVal, skipWs, isWsChar]
  | .jobj (.ocons k v t), hs, fuel, rest, hf, _ => by
    have hd : Jx.dumps (.jobj (.ocons k v t)) = 123 :: JxObj.dumps (.ocons k v t) ++ [125] := rfl
    rw [hd] at hf ⊢
    cases fuel with
    | zero => simp at hf
    | succ g =>
      have hassoc : (123 :: JxObj.dumps (.ocons k v t) ++ [125]) ++ rest =
          123 :: (JxObj.dumps (.ocons k v t) ++ 125 :: rest) := by
        simp
      rw [hassoc]
      simp only [parseVal, if_neg (by omega : ¬(123 : Nat) = 34), if_pos rfl]
      have hobjhead : ∃ tl, JxObj.dumps (.ocons k v t) = 0x22 :: tl := by
        cases t with
        | onil =>
          refine ⟨(k.map escChar).flatten ++ 0x22 :: 58 :: Jx.dumps v, ?_⟩
          simp [JxObj.dumps, escString]
        | ocons k2 v2 t2 =>
          refine ⟨(k.map escChar).flatten ++
            0x22 :: 58 :: (Jx.dumps v ++ 44 :: JxObj.dumps (.ocons k2 v2 t2)), ?_⟩
          simp [JxObj.dumps, escString]
      obtain ⟨tl, htl⟩ := hobjhead
      rw [htl]
      simp only [List.cons_append]
      rw [skipWs_not_ws _ _ (by decide)]
      have hmatch : (match (0x22 : Nat) :: (tl ++ 125 :: rest) with
          | 125 :: r2 => some (Jx.jobj .onil, r2)
          | r => parseObjItems g r) = parseObjItems g (0x22 :: (tl ++ 125 :: rest)) := rfl
      rw [hmatch, ← List.cons_append, ← htl]
      have hflen : (JxObj.dumps (.ocons k v t)).length < g := by
        simp only [List.length_cons, List.length_append] at hf
        simp at hf
        omega
      rw [parseObjItems_dumps (.ocons k v t) (by intro hc; cases hc) hs g rest hflen]
      simp

theorem parseArrItems_dumps : ∀ (l : JxList), l ≠ .nil → JxList.scalarOK l = true →
    ∀ (fuel : Nat) (rest : List Nat), (JxList.dumps l).length < fuel →
    parseArrItems fuel (JxList.dumps l ++ 93 :: rest) = some (.jarr l, rest)
  | .nil, hne, _, _, _, _ => absurd rfl hne
  | .cons x t, _, hs, fuel, rest, hf => by
    have hsx : Jx.scalarOK x = true := by
      have h := hs
      rw [JxList.scalarOK, Bool.and_eq_true] at h
      exact h.1
    have hst : JxList.scalarOK t = true := by
      have h := hs
      rw [JxList.scalarOK, Bool.and_eq_true] at h
      exact h.2
    cases fuel with
    | zero => omega
    | succ g =>
      cases t with
      | nil =>
        have hd : JxList.dumps (.cons x .nil) = Jx.dumps x := rfl
        rw [hd] at hf ⊢
        simp only [parseArrItems]
        rw [parseVal_dumps x hsx g (93 :: rest) (by omega) (numEnd_rbracket rest)]
        simp [skipWs, isWsChar]
      | cons y t' =>
        have hd : JxList.dumps (.cons x (.cons y t')) =
            Jx.dumps x ++ 44 :: JxList.dumps (.cons y t') := rfl
        rw [hd] at hf ⊢
        have hlen1 : (Jx.dumps x).length + 1 + (JxList.dumps (.cons y t')).length =
            (Jx.dumps x ++ 44 :: JxList.dumps (.cons y t')).length := by
          simp
          omega
        simp only [parseArrItems, List.append_assoc, List.cons_append]
        rw [parseVal_dumps x hsx g (44 :: (JxList.dumps (.cons y t') ++ 93 :: rest))
          (by omega) (numEnd_comma _)]
        simp only [skipWs_not_ws 44 _ (by decide)]
        obtain ⟨z, hz⟩ := jxlist_dumps_cons y t'
        have hz1 := (hz (93 :: rest)).1
        rw [hz1, skipWs_append_dumps y (z ++ 93 :: rest), ← hz1]
        rw [parseArrItems_dumps (.cons y t') (by intro hc; cases hc) hst g rest (by omega)]

theorem parseObjItems_dumps : ∀ (o : JxObj), o ≠ .onil → JxObj.scalarOK o = true →
    ∀ (fuel : Nat) (rest : List Nat), (JxObj.dumps o).length < fuel →
    parseObjItems fuel (JxObj.dumps o ++ 125 :: rest) = some (.jobj o, rest)
  | .onil, hne, _, _, _, _ => absurd rfl hne
  | .ocons k v t, _, hs, fuel, rest, hf => by
    have hsk : scalarStr k = true := by
      have h := hs
      rw [JxObj.scalarOK, Bool.and_eq_true, Bool.and_eq_true] at h
      exact h.1.1
    have hsv : Jx.scalarOK v = true := by
      have h := hs
      rw [JxObj.scalarOK, Bool.and_eq_true, Bool.and_eq_true] at h
      exact h.1.2
    have hst : JxObj.scalarOK t = true := by
      have h := hs
      rw [JxObj.scalarOK, Bool.and_eq_true] at h
      exact h.2
    cases fuel with
    | zero => omega
    | succ g =>
      cases t with
      | onil =>
        have hd : JxObj.dumps (.ocons k v .onil) = escString k ++ 58 :: Jx.dumps v := rfl
        rw [hd] at hf ⊢
        simp only [List.length_append, List.length_cons, escString_length] at hf
        rw [escString]
        simp only [List.cons_append, List.append_assoc, List.singleton_append]
        have hkey := parseStr_esc k hsk g (58 :: (Jx.dumps v ++ 125 :: rest)) (by omega)
        have hval := parseVal_dumps v hsv g (125 :: rest) (by omega) (numEnd_rbrace rest)
        simp [parseObjItems, hkey, hval, skipWs, isWsChar, skipWs_append_dumps]
      | ocons k' v' t' =>
        have hd : JxObj.dumps (.ocons k v (.ocons k' v' t')) =
            escString k ++ 58 :: Jx.dumps v ++ 44 :: JxObj.dumps (.ocons k' v' t') := rfl
        rw [hd] at hf ⊢
        simp only [List.length_append, List.length_cons, escString_length] at hf
        rw [escString]
        simp only [List.cons_append, List.append_assoc, List.singleton_append]
        have hkey := parseStr_esc k hsk g
          (58 :: (Jx.dumps v ++ 44 :: (JxObj.dumps (.ocons k' v' t') ++ 125 :: rest)))
          (by omega)
        have hval := parseVal_dumps v hsv g
          (44 :: (JxObj.dumps (.ocons k' v' t') ++ 125 :: rest)) (by omega) (numEnd_comma _)
        have hrec := parseObjItems_dumps (.ocons k' v' t') (by intro hc; cases hc) hst g rest
          (by omega)
        have hsk2 := skipWs_jxobj_dumps k' v' t' (125 :: rest)
        simp [parseObjItems, hkey, hval, hrec, hsk2, skipWs, isWsChar, skipWs_append_dumps]
end

mutual
theorem jxDumpsPrintable : ∀ (v : Jx), ∀ c ∈ Jx.dumps v, 0x20 ≤ c ∧ c ≤ 0x7E
  | .jnull, c, hc => by
    have h : Jx.dumps .jnull = [110, 117, 108, 108] := by decide
    rw [h] at hc
    simp at hc
    rcases hc with h1 | h1 | h1 | h1 <;> omega
  | .jbool true, c, hc => by
    have h : Jx.dumps (.jbool true) = [116, 114, 117, 101] := by decide
    rw [h] at hc
    simp at hc
    rcases hc with h1 | h1 | h1 | h1 <;> omega
  | .jbool false, c, hc => by
    have h : Jx.dumps (.jbool false) = [102, 97, 108, 115, 101] := by decide
    rw [h] at hc
    simp at hc
    rcases hc with h1 | h1 | h1 | h1 | h1 <;> omega
  | .jint (Int.ofNat m), c, hc => by
    have h : Jx.dumps (.jint (Int.ofNat m)) = natDigits m := rfl
    rw [h] at hc
    have := natDigits_digits m c hc
    omega
  | .jint (Int.negSucc m), c, hc => by
    have h : Jx.dumps (.jint (Int.negSucc m)) = 45 :: natDigits (m + 1) := rfl
    rw [h] at hc
    rcases List.mem_cons.mp hc with h1 | h1
    · omega
    · have := natDigits_digits (m + 1) c h1
      omega
  | .jstr s, c, hc => escString_bounds s c hc
  | .jarr l, c, hc => by
    have h : Jx.dumps (.jarr l) = 91 :: JxList.dumps l ++ [93] := rfl
    rw [h] at hc
    rcases List.mem_cons.mp hc with h1 | h1
    · omega
    · rcases List.mem_append.mp h1 with h2 | h2
      · exact jxlistDumpsPrintable l c h2
      · simp at h2
        omega
  | .jobj o, c, hc => by
    have h : Jx.dumps (.jobj o) = 123 :: JxObj.dumps o ++ [125] := rfl
    rw [h] at hc
    rcases List.mem_cons.mp hc with h1 | h1
    · omega
    · rcases List.mem_append.mp h1 with h2 | h2
      · exact jxobjDumpsPrintable o c h2
      · simp at h2
        omega

theorem jxlistDumpsPrintable : ∀ (l : JxList), ∀ c ∈ JxList.dumps l, 0x20 ≤ c ∧ c ≤ 0x7E
  | .nil, c, hc => by simp [JxList.dumps] at hc
  | .cons x .nil, c, hc => by
    have h : JxList.dumps (.cons x .nil) = Jx.dumps x := rfl
    rw [h] at hc
    exact jxDumpsPrintable x c hc
  | .cons x (.cons y t), c, hc => by
    have h : JxList.dumps (.cons x (.cons y t)) =
        Jx.dumps x ++ 44 :: JxList.dumps (.cons y t) := rfl
    rw [h] at hc
    rcases List.mem_append.mp hc with h1 | h1
    · exact jxDumpsPrintable x c h1
    · rcases List.mem_cons.mp h1 with h2 | h2
      · omega
      · exact jxlistDumpsPrintable (.cons y t) c h2

theorem jxobjDumpsPrintable : ∀ (o : JxObj), ∀ c ∈ JxObj.dumps o, 0x20 ≤ c ∧ c ≤ 0x7E
  | .onil, c, hc => by simp [JxObj.dumps] at hc
  | .ocons k v .onil, c, hc => by
    have h : JxObj.dumps (.ocons k v .onil) = escString k ++ 58 :: Jx.dumps v := rfl
    rw [h] at hc
    rcases List.mem_append.mp hc with h1 | h1
    · exact escString_bounds k c h1
    · rcases List.mem_cons.mp h1 with h2 | h2
      · omega
      · exact jxDumpsPrintable v c h2
  | .ocons k v (.ocons k' v' t), c, hc => by
    have h : JxObj.dumps (.ocons k v (.ocons k' v' t)) =
        escString k ++ 58 :: Jx.dumps v ++ 44 :: JxObj.dumps (.ocons k' v' t) := rfl
    rw [h] at hc
    rcases List.mem_append.mp hc with h1 | h1
    · rcases List.mem_append.mp h1 with h2 | h2
      · exact escString_bounds k c h2
      · rcases List.mem_cons.mp h2 with h3 | h3
        · omega
        · exact jxDumpsPrintable v c h3
    · rcases List.mem_cons.mp h1 with h2 | h2
      · omega
      · exact jxobjDumpsPrintable (.ocons k' v' t) c h2
end

theorem jsonParse_dumps (v : Jx) (h : Jx.scalarOK v = true) :
    jsonParse (Jx.dumps v) = some v := by
  have h2 := parseVal_dumps v h ((Jx.dumps v).length + 1) [] (by omega) (by simp [numEnd])
  rw [List.append_nil] at h2
  have h1 : skipWs (Jx.dumps v) = Jx.dumps v := by
    have h3 := skipWs_append_dumps v []
    simpa using h3
  rw [jsonParse, h1, h2]
  simp [skipWs]

theorem detectEncoding_printable (b : List Nat) (h : ∀ c ∈ b, 0x20 ≤ c ∧ c ≤ 0x7E) :
    detectEncoding b = .utf8 := by
  rw [detectEncoding.eq_def]
  split
  · exact absurd (h 0 (List.mem_cons_self 0 _)).1 (by omega)
  · exact absurd (h 255 (List.mem_cons_self 255 _)).2 (by omega)
  · exact absurd (h 254 (List.mem_cons_self 254 _)).2 (by omega)
  · exact absurd (h 255 (List.mem_cons_self 255 _)).2 (by omega)
  · exact absurd (h 239 (List.mem_cons_self 239 _)).2 (by omega)
  · have h0 := h _ (List.mem_cons_self _ _)
    have h1 := h _ (List.mem_cons_of_mem _ (List.mem_cons_self _ _))
    rw [if_neg (by omega), if_neg (by omega)]
  · have h0 := h _ (List.mem_cons_self _ _)
    have h1 := h _ (List.mem_cons_of_mem _ (List.mem_cons_self _ _))
    rw [if_neg (by omega), if_neg (by omega)]
  · rfl

theorem jsonLoadsBytes_dumps (v : Jx) (h : Jx.scalarOK v = true) :
    jsonLoadsBytes (utf8Encode (Jx.dumps v)) = .ok (some v) := by
  have hpr := jxDumpsPrintable v
  have henc : utf8Encode (Jx.dumps v) = Jx.dumps v :=
    utf8Encode_ascii _ (fun c hc => by have := hpr c hc; omega)
  rw [henc]
  have hdet : detectEncoding (Jx.dumps v) = .utf8 := detectEncoding_printable _ hpr
  have hdec : utf8DecodeSP (Jx.dumps v) = some (Jx.dumps v) :=
    utf8DecodeSP_ascii _ (fun c hc => by have := hpr c hc; omega)
  have hjdb : jsonDecodeBytes (Jx.dumps v) = some (Jx.dumps v) := by
    unfold jsonDecodeBytes
    rw [hdet, hdec]
  rw [jsonLoadsBytes, hjdb]
  simp [jsonParse_dumps v h]

theorem mkProtocolMessage_idem (t : Nat) (mod io : PyStr) (ioty : Nat) (p : Jx) :
    mkProtocolMessage t mod ioty io (mkProtocolMessage t mod ioty io p).payload =
      mkProtocolMessage t mod ioty io p := by
  by_cases hp : pyTruthy p = true
  · simp [mkProtocolMessage, hp]
  · have hfalse : pyTruthy p = false := by simpa using hp
    have honil : pyTruthy (.jobj .onil) = false := rfl
    simp [mkProtocolMessage, hfalse, honil]

theorem unpack_layout (t ioty : Nat) (mod io pd extra : List Nat) (hpd0 : pd ≠ []) :
    unpack (([t, mod.length / 256, mod.length % 256, ioty, io.length / 256, io.length % 256,
        pd.length / 256, pd.length % 256] ++ mod ++ io ++ pd) ++ extra) =
      match jsonLoadsBytes pd with
      | .error _ => .error ()
      | .ok op => .ok (mkProtocolMessage t (utf8DecodeReplace mod) ioty
          (utf8DecodeReplace io) (op.getD (.jobj .onil))) := by
  have hdata : ([t, mod.length / 256, mod.length % 256, ioty, io.length / 256,
      io.length % 256, pd.length / 256, pd.length % 256] ++ mod ++ io ++ pd) ++ extra =
      t :: (mod.length / 256) :: (mod.length % 256) :: ioty :: (io.length / 256) ::
      (io.length % 256) :: (pd.length / 256) :: (pd.length % 256) ::
      (mod ++ (io ++ (pd ++ extra))) := by
    simp
  rw [hdata, unpack]
  rw [if_neg (by simp)]
  simp only [List.getD_cons_zero, List.getD_cons_succ, List.drop_succ_cons, List.drop_zero]
  have hm : mod.length / 256 * 256 + mod.length % 256 = mod.length := by omega
  have hi : io.length / 256 * 256 + io.length % 256 = io.length := by omega
  have hp : pd.length / 256 * 256 + pd.length % 256 = pd.length := by omega
  rw [hm, hi, hp]
  rw [List.take_left, List.drop_left, List.take_left, List.drop_left]
  have hcond : pd.length ≠ 0 ∧ pd.length ≤ (pd ++ extra).length := by
    constructor
    · intro hc
      exact hpd0 (List.length_eq_zero.mp hc)
    · simp
  rw [if_pos hcond, List.take_left]

/-- C8, counterexample: the header stores `len(self.module_id)` — the
*string* length in code points — while the body stores the UTF-8 bytes.
For the 1-character module id é (2 UTF-8 bytes) `pack` succeeds, but
`unpack` reads 1 body byte as the module id (an invalid prefix, decoded
with `errors='replace'` to U+FFFD), shifts the io id and payload windows
by one byte, and returns a different message: the codec does not
round-trip on non-ASCII strings. -/
theorem c8_round_trip_counterexample :
    (pack c8msg).isSome = true ∧
    unpack ((pack c8msg).getD []) = .ok c8msgCorrupted ∧
    c8msgCorrupted.module_id ≠ c8msg.module_id ∧
    c8msgCorrupted.io_id ≠ c8msg.io_id := by
  decide

/-- C8 (amended): for messages whose `module_id` and `io_id` are *ASCII*
(where code-point count and UTF-8 byte count agree) with lengths below
2^16, a JSON-serializable payload below 2^16 encoded bytes, and in-range
`type`/`io_type` bytes, the codec round-trips: `pack` emits exactly the
`!BHBHH` header `type | mod_len | io_type | io_len | payload_len` (16-bit
fields big-endian) followed by the three byte regions, and `unpack`
recovers the original message from it, ignoring any appended trailing
bytes. -/
theorem c8_round_trip_amended (t : Nat) (mod io : PyStr) (ioty : Nat) (p : Jx)
    (extra : List Nat) (ht : t < 256) (hity : ioty < 256)
    (hmod : ∀ c ∈ mod, c < 0x80) (hioid : ∀ c ∈ io, c < 0x80)
    (hml : mod.length < 65536) (hil : io.length < 65536)
    (hpl : (Jx.dumps (mkProtocolMessage t mod ioty io p).payload).length < 65536)
    (hsc : Jx.scalarOK (mkProtocolMessage t mod ioty io p).payload = true) :
    pack (mkProtocolMessage t mod ioty io p) =
      some ([t, mod.length / 256, mod.length % 256, ioty,
             io.length / 256, io.length % 256,
             (Jx.dumps (mkProtocolMessage t mod ioty io p).payload).length / 256,
             (Jx.dumps (mkProtocolMessage t mod ioty io p).payload).length % 256]
            ++ mod ++ io ++ Jx.dumps (mkProtocolMessage t mod ioty io p).payload) ∧
    unpack (([t, mod.length / 256, mod.length % 256, ioty,
              io.length / 256, io.length % 256,
              (Jx.dumps (mkProtocolMessage t mod ioty io p).payload).length / 256,
              (Jx.dumps (mkProtocolMessage t mod ioty io p).payload).length % 256]
             ++ mod ++ io ++ Jx.dumps (mkProtocolMessage t mod ioty io p).payload) ++ extra) =
      .ok (mkProtocolMessage t mod ioty io p) := by
  have hppr := jxDumpsPrintable (mkProtocolMessage t mod ioty io p).payload
  have hpb : utf8Encode (Jx.dumps (mkProtocolMessage t mod ioty io p).payload) =
      Jx.dumps (mkProtocolMessage t mod ioty io p).payload :=
    utf8Encode_ascii _ (fun c hc => by have := hppr c hc; omega)
  have hmodb : utf8Encode mod = mod := utf8Encode_ascii _ hmod
  have hiob : utf8Encode io = io := utf8Encode_ascii _ hioid
  have hmodd : utf8DecodeReplace mod = mod := utf8DecodeReplace_ascii _ hmod
  have hiod : utf8DecodeReplace io = io := utf8DecodeReplace_ascii _ hioid
  have hpd0 : Jx.dumps (mkProtocolMessage t mod ioty io p).payload ≠ [] := by
    have := dumps_length_pos (mkProtocolMessage t mod ioty io p).payload
    intro hc
    rw [hc] at this
    simp at this
  have hjl := jsonLoadsBytes_dumps (mkProtocolMessage t mod ioty io p).payload hsc
  rw [hpb] at hjl
  constructor
  · have hcond : (mkProtocolMessage t mod ioty io p).type < 256 ∧
        (mkProtocolMessage t mod ioty io p).module_id.length < 65536 ∧
        (mkProtocolMessage t mod ioty io p).io_type < 256 ∧
        (mkProtocolMessage t mod ioty io p).io_id.length < 65536 ∧
        (utf8Encode (Jx.dumps (mkProtocolMessage t mod ioty io p).payload)).length < 65536 := by
      refine ⟨?_, hml, ?_, hil, ?_⟩
      · exact Nat.mod_lt _ (by omega)
      · exact Nat.mod_lt _ (by omega)
      · rw [hpb]
        exact hpl
    have hm1 : (mkProtocolMessage t mod ioty io p).module_id = mod := rfl
    have hi1 : (mkProtocolMessage t mod ioty io p).io_id = io := rfl
    have hty : (mkProtocolMessage t mod ioty io p).type = t := by
      simp [mkProtocolMessage, Nat.mod_eq_of_lt ht]
    have hity2 : (mkProtocolMessage t mod ioty io p).io_type = ioty := by
      simp [mkProtocolMessage, Nat.mod_eq_of_lt hity]
    simp only [pack]
    rw [if_pos hcond, hpb, hm1, hi1, hmodb, hiob, hty, hity2]
  · rw [unpack_layout t ioty mod io _ extra hpd0, hjl]
    rw [hmodd, hiod]
    simp only [Option.getD_some]
    rw [mkProtocolMessage_idem]

/-- C8 (amended), witness at a concrete message (an `INITIATE` from
`osc_0` for `cv` with payload `{"type":"audio"}` and two trailing
bytes). -/
theorem c8_round_trip_amended_witness :
    unpack (([1, 0, 5, 1, 0, 2, 0, 16] ++ pystr "osc_0" ++ pystr "cv" ++
        Jx.dumps (Jx.jobj (.ocons (pystr "type") (.jstr (pystr "audio")) .onil))) ++ [0, 9]) =
      .ok (mkProtocolMessage 1 (pystr "osc_0") 1 (pystr "cv")
        (.jobj (.ocons (pystr "type") (.jstr (pystr "audio")) .onil))) :=
  by
  have hmw : ∀ c ∈ pystr "osc_0", c < 0x80 := by decide
  have hiw : ∀ c ∈ pystr "cv", c < 0x80 := by decide
  have hmlw : (pystr "osc_0").length < 65536 := by decide
  have hilw : (pystr "cv").length < 65536 := by decide
  have hplw : (Jx.dumps (mkProtocolMessage 1 (pystr "osc_0") 1 (pystr "cv")
      (.jobj (.ocons (pystr "type") (.jstr (pystr "audio")) .onil))).payload).length <
      65536 := by decide
  have hscw : Jx.scalarOK (mkProtocolMessage 1 (pystr "osc_0") 1 (pystr "cv")
      (.jobj (.ocons (pystr "type") (.jstr (pystr "audio")) .onil))).payload = true := by
    decide
  exact (c8_round_trip_amended 1 (pystr "osc_0") (pystr "cv") 1
    (.jobj (.ocons (pystr "type") (.jstr (pystr "audio")) .onil)) [0, 9]
    (by omega) (by omega) hmw hiw hmlw hilw hplw hscw).2

/-- C9, counterexample: a datagram whose module id is the invalid UTF-8
byte `0xFF` and whose payload `xx` is not JSON is *not* dropped — the
string is decoded with `errors='replace'` to U+FFFD, the JSON failure is
swallowed into an empty payload, and the resulting `INITIATE` still
reaches the jacks, moving an idle output to `OOtherPending`. -/
theorem c9_not_dropped_counterexample :
    unpack c9data = .ok (mkProtocolMessage 1 [0xFFFD] 0 [] (.jobj .onil)) ∧
    mkProtocolMessage 1 [0xFFFD] 0 [] (.jobj .onil) ≠ badMsg ∧
    (moduleDispatch oscCtx [] [{ io_id := pystr "audio" }] []
        (wireToFsm (mkProtocolMessage 1 [0xFFFD] 0 [] (.jobj .onil)))).2 =
      [{ io_id := pystr "audio", state := .OOtherPending }] ∧
    OutputState.OOtherPending ≠ OutputState.OIdle := by
  decide

/-- C9 (amended): of the claimed decode-failure cases only the short
header is actually dropped: a datagram shorter than 8 bytes unpacks to the
type-0 sentinel `ProtocolMessage(0, "bad")`, whose type matches no
dispatch branch of `handle_msg`, so no jack changes state.  (Invalid
UTF-8 in the string fields and non-JSON payloads do *not* drop the
message: `errors='replace'` and the swallowed `JSONDecodeError` let it
through to the jacks — see the counterexample.) -/
theorem c9_short_header_dropped_amended (data : List Nat) (h : data.length < 8)
    (mctx : ModuleCtx) (ins : List InputJack) (outs : List OutputJack) (conns : Conns) :
    unpack data = .ok badMsg ∧
    moduleDispatch mctx ins outs conns (wireToFsm badMsg) = (ins, outs) := by
  constructor
  · rw [unpack, if_pos h]
  · rfl

/-- C9 (amended), witness: a 3-byte datagram on a module with one idle
input and one idle output. -/
theorem c9_short_header_dropped_amended_witness :
    unpack [1, 2, 3] = .ok badMsg ∧
    moduleDispatch oscCtx [{ io_id := pystr "fm" }] [{ io_id := pystr "audio" }] []
        (wireToFsm badMsg) =
      ([{ io_id := pystr "fm" }], [{ io_id := pystr "audio" }]) :=
  c9_short_header_dropped_amended [1, 2, 3] (by decide) oscCtx
    [{ io_id := pystr "fm" }] [{ io_id := pystr "audio" }] []

/-- C10, counterexample: `unpack` is *not* total.  For the 9-byte datagram
below the payload window is the single invalid UTF-8 byte `0xFF`;
`json.loads` on those bytes raises `UnicodeDecodeError` (not the caught
`json.JSONDecodeError`), which `unpack` does not catch (modelled as
`.error ()`). -/
theorem c10_unpack_raises_counterexample :
    unpack [1, 0, 0, 0, 0, 0, 0, 1, 0xFF] = .error () := by
  decide

/-- C10 (amended): `unpack` is total *except* when the selected payload
window fails to decode as text, where the uncaught `UnicodeDecodeError`
escapes; everything else behaves as claimed: short datagrams yield the
type-0 `"bad"` sentinel, overrunning string fields are truncated to the
available bytes (and decoded with `errors='replace'`), and a payload
window that decodes but fails JSON parsing yields the empty payload
dictionary. -/
theorem c10_unpack_total_amended (data : List Nat) :
    (data.length < 8 → unpack data = .ok badMsg) ∧
    (unpack data = .error () ↔
      8 ≤ data.length ∧ payActive data ∧ jsonDecodeBytes (paySlice data) = none) ∧
    (∀ m, unpack data = .ok m → 8 ≤ data.length →
      m.module_id = utf8DecodeReplace (modSlice data) ∧
      m.io_id = utf8DecodeReplace (ioSlice data)) ∧
    (∀ m cs, unpack data = .ok m → jsonDecodeBytes (paySlice data) = some cs →
      jsonParse cs = none → m.payload = .jobj .onil) := by
  by_cases h8 : data.length < 8
  · have hu : unpack data = .ok badMsg := by rw [unpack, if_pos h8]
    refine ⟨fun _ => hu, ?_, ?_, ?_⟩
    · rw [hu]
      constructor
      · intro hc
        cases hc
      · rintro ⟨hc, -⟩
        omega
    · intro m _ h8'
      omega
    · intro m cs hm _ _
      rw [hu] at hm
      injection hm with hm
      rw [← hm]
      rfl
  · have hbody : unpack data =
        if payActive data then
          match jsonLoadsBytes (paySlice data) with
          | .error _ => .error ()
          | .ok op => .ok (mkProtocolMessage (data.getD 0 0)
              (utf8DecodeReplace (modSlice data)) (data.getD 3 0)
              (utf8DecodeReplace (ioSlice data)) (op.getD (.jobj .onil)))
        else .ok (mkProtocolMessage (data.getD 0 0) (utf8DecodeReplace (modSlice data))
              (data.getD 3 0) (utf8DecodeReplace (ioSlice data)) (.jobj .onil)) := by
      rw [unpack, if_neg h8]
    rw [hbody]
    by_cases hpa : payActive data
    · rw [if_pos hpa]
      cases hjlb : jsonLoadsBytes (paySlice data) with
      | error e =>
        refine ⟨fun hc => absurd hc h8, ?_, ?_, ?_⟩
        · constructor
          · intro _
            refine ⟨by omega, hpa, ?_⟩
            rw [jsonLoadsBytes] at hjlb
            cases hdec : jsonDecodeBytes (paySlice data) with
            | none => rfl
            | some cs =>
              rw [hdec] at hjlb
              cases hjlb
          · intro _
            rfl
        · intro m hm
          cases hm
        · intro m cs hm
          cases hm
      | ok op =>
        refine ⟨fun hc => absurd hc h8, ?_, ?_, ?_⟩
        · constructor
          · intro hc
            cases hc
          · rintro ⟨-, -, hdec⟩
            rw [jsonLoadsBytes, hdec] at hjlb
            cases hjlb
        · intro m hm _
          injection hm with hm
          rw [← hm]
          exact ⟨rfl, rfl⟩
        · intro m cs hm hdec hp
          injection hm with hm
          rw [jsonLoadsBytes, hdec] at hjlb
          injection hjlb with hjlb
          rw [← hm, ← hjlb, hp]
          rfl
    · rw [if_neg hpa]
      refine ⟨fun hc => absurd hc h8, ?_, ?_, ?_⟩
      · constructor
        · intro hc
          cases hc
        · rintro ⟨-, hpa', -⟩
          exact absurd hpa' hpa
      · intro m hm _
        injection hm with hm
        rw [← hm]
        exact ⟨rfl, rfl⟩
      · intro m cs hm _ _
        injection hm with hm
        rw [← hm]
        rfl

/-- C10 (amended), witness: a 2-byte datagram yields the sentinel; the
9-byte datagram with an undecodable payload window is exactly an
`.error`. -/
theorem c10_unpack_total_amended_witness :
    unpack [7, 7] = .ok badMsg ∧
    unpack [1, 0, 0, 0, 0, 0, 0, 1, 0xFF] = .error () := by
  refine ⟨(c10_unpack_total_amended [7, 7]).1 (by decide), ?_⟩
  exact (c10_unpack_total_amended [1, 0, 0, 0, 0, 0, 0, 1, 0xFF]).2.1.mpr
    (by refine ⟨by decide, ⟨by decide, by decide⟩, by decide⟩)


end Digimod
